import Mathlib

/-! youtube-manager: playlist and video requests, terminal output, downloader
argument assembly, token cache

A shallow embedding of the parts of the Go sources the specification talks
about.  Calls that leave the process (the YouTube Data API, the search path,
the `yt-dlp` subprocess, the file system, the terminal) are explicit arguments
of the embedded functions, and every embedded function returns, next to its Go
result, the list of outside calls it made, in the order it made them.
-/

namespace YoutubeManager

/-! ## Go errors -/

/-- A Go `error` value: either a plain message, or a message together with the
error it wraps (what `errors.Unwrap` gives back). -/
inductive GoError where
  | errorString (msg : String)
  | wrapError (msg : String) (cause : GoError)
  deriving DecidableEq, Repr

/-- The `Error()` method. -/
def GoError.Error : GoError → String
  | .errorString msg => msg
  | .wrapError msg _ => msg

/-- The `Unwrap()` method. -/
def GoError.Unwrap : GoError → Option GoError
  | .errorString _ => none
  | .wrapError _ cause => some cause

/-- The call `fmt.Errorf(context + "%w", err)`: the message is the context
followed by the message of `err`, and the result wraps `err`. -/
def fmtErrorfW (context : String) (err : GoError) : GoError :=
  .wrapError (context ++ err.Error) err

/-! ## internal/youtube/playlist.go -/

/-- The fields of `youtube.PlaylistItemSnippet` the program reads. -/
structure PlaylistItemSnippet where
  Title : String
  ChannelTitle : String
  deriving DecidableEq, Repr

/-- The fields of `youtube.PlaylistItemContentDetails` the program reads. -/
structure PlaylistItemContentDetails where
  VideoId : String
  deriving DecidableEq, Repr

/-- A `*youtube.PlaylistItem`; the two parts are pointers in Go. -/
structure PlaylistItem where
  Id : String
  Snippet : Option PlaylistItemSnippet
  ContentDetails : Option PlaylistItemContentDetails
  deriving DecidableEq, Repr

/-- A `PlaylistItemsListCall` as built by
`PlaylistItems.List(part).PlaylistId(..).MaxResults(..)[.PageToken(..)]`;
`pageToken` is `none` when `PageToken` was never called on it. -/
structure PlaylistItemsListCall where
  part : List String
  playlistId : String
  maxResults : Int
  pageToken : Option String
  deriving DecidableEq, Repr

/-- The fields of `youtube.PlaylistItemListResponse` that `GetItems` reads. -/
structure PlaylistItemListResponse where
  Items : List PlaylistItem
  NextPageToken : String
  deriving DecidableEq, Repr

/-- What `call.Do()` gives back: a response or an error. -/
abbrev DoResult := Except GoError PlaylistItemListResponse

/-- The remote side of `call.Do()`: from its current state and the call it
receives, the API answers and moves to a new state. -/
abbrev PlaylistItemsApi (σ : Type) := σ → PlaylistItemsListCall → DoResult × σ

/-- One round trip: the call sent and what `Do` returned for it. -/
structure Exchange where
  call : PlaylistItemsListCall
  reply : DoResult

/-- A run of `GetItems`: the Go return values (`none` while the loop is still
running when the step budget ends), the round trips made, oldest first, and
the state the API is left in. -/
structure GetItemsRun (σ : Type) where
  returned : Option (List PlaylistItem × Option GoError)
  exchanges : List Exchange
  server : σ

/-- The call built at the top of each iteration (playlist.go, lines 42-48):
parts `snippet` and `contentDetails`, the playlist id, `MaxResults(int64(limit))`,
and `PageToken(pageToken)` only when `pageToken` is not empty. -/
def newListCall (playlistID : String) (limit : Int) (pageToken : String) :
    PlaylistItemsListCall :=
  let call : PlaylistItemsListCall :=
    { part := ["snippet", "contentDetails"], playlistId := playlistID,
      maxResults := limit, pageToken := none }
  if pageToken != "" then { call with pageToken := some pageToken } else call

/-- The `for` loop of `PlaylistService.GetItems` (playlist.go, lines 41-61),
one iteration per unit of `fuel`, started with the loop variables `pageToken`
and `allVideos`. -/
def GetItemsLoop {σ : Type} (Do : PlaylistItemsApi σ) (playlistID : String) (limit : Int) :
    Nat → σ → String → List PlaylistItem → GetItemsRun σ
  | 0, s, _, _ => { returned := none, exchanges := [], server := s }
  | fuel + 1, s, pageToken, allVideos =>
    let call := newListCall playlistID limit pageToken
    match Do s call with
    | (.error err, s') =>
      { returned := some ([], some (fmtErrorfW "error fetching playlist items: " err)),
        exchanges := [⟨call, .error err⟩], server := s' }
    | (.ok response, s') =>
      let allVideos := allVideos ++ response.Items
      if response.NextPageToken == "" then
        { returned := some (allVideos, none), exchanges := [⟨call, .ok response⟩], server := s' }
      else
        let run := GetItemsLoop Do playlistID limit fuel s' response.NextPageToken allVideos
        { run with exchanges := ⟨call, .ok response⟩ :: run.exchanges }

/-- `PlaylistService.GetItems(ctx, playlistID, limit)` against the API `Do` in
state `s`: `allVideos` starts nil and `pageToken` starts empty. -/
def GetItems {σ : Type} (Do : PlaylistItemsApi σ) (s : σ) (playlistID : String) (limit : Int)
    (fuel : Nat) : GetItemsRun σ :=
  GetItemsLoop Do playlistID limit fuel s "" []

/-- A scripted API: it answers the successive requests with the successive
entries of a fixed list, whatever the request says, and fails once the list
is used up.  Its state is the part of the script not yet served. -/
def scriptedApi : PlaylistItemsApi (List DoResult)
  | [], _ => (.error (.errorString "scripted API: no response left"), [])
  | r :: rest, _ => (r, rest)

/-- The round trips a run makes against a script it consumes entirely, when
the first call is built from `pageToken`. -/
def scriptExchanges (playlistID : String) (limit : Int) :
    String → List DoResult → List Exchange
  | _, [] => []
  | pageToken, .ok p :: rs =>
    ⟨newListCall playlistID limit pageToken, .ok p⟩ ::
      scriptExchanges playlistID limit p.NextPageToken rs
  | pageToken, .error e :: rs =>
    ⟨newListCall playlistID limit pageToken, .error e⟩ ::
      scriptExchanges playlistID limit pageToken rs

/-- A playlist item with the given id, title and video id, used in the examples. -/
def sampleItem (id title videoId : String) : PlaylistItem :=
  { Id := id, Snippet := some { Title := title, ChannelTitle := "channel" },
    ContentDetails := some { VideoId := videoId } }

/-- The relation the loop keeps between two consecutive round trips: the
earlier one was answered with a page, and the later call carries that page's
continuation token. -/
def Follows (e e' : Exchange) : Prop :=
  ∃ r, e.reply = .ok r ∧ e'.call.pageToken = some r.NextPageToken

/-! ## path/filepath (Go standard library, Unix separator)

`Downloader.Download` and `Client.saveToken` call `filepath.Join` and
`filepath.Dir`.  They are library functions; the definitions below follow the
library's documented algorithm for `Clean`, element by element. -/

/-- The elements of a path between its separators `/` (an empty path has the
single element `[]`). -/
def splitSeparator : List Char → List (List Char)
  | [] => [[]]
  | c :: cs =>
    if c = '/' then [] :: splitSeparator cs
    else
      match splitSeparator cs with
      | [] => [[c]]
      | e :: es => (c :: e) :: es

/-- The main loop of `filepath.Clean` over the elements of the path: empty and
`.` elements are skipped, `..` removes the element before it when there is one
to remove (`dotdot` leading elements cannot be removed) and is otherwise kept
on a path that is not rooted, every other element is appended. -/
def cleanElements (rooted : Bool) : List (List Char) → List (List Char) → Nat → List (List Char)
  | [], out, _ => out
  | e :: es, out, dotdot =>
    if e = [] then cleanElements rooted es out dotdot
    else if e = ['.'] then cleanElements rooted es out dotdot
    else if e = ['.', '.'] then
      if out.length > dotdot then cleanElements rooted es out.dropLast dotdot
      else if !rooted then cleanElements rooted es (out ++ [e]) (out.length + 1)
      else cleanElements rooted es out dotdot
    else cleanElements rooted es (out ++ [e]) dotdot

/-- The function `filepath.Clean`: the shortest path equivalent to `path`. -/
def filepathClean (path : String) : String :=
  if path = "" then "."
  else
    let rooted := path.data.head? == some '/'
    let out := cleanElements rooted (splitSeparator path.data) [] 0
    let body := String.mk (List.intercalate ['/'] out)
    if rooted then "/" ++ body
    else if body = "" then "." else body

/-- The call `filepath.Join(dir, file)` with two elements: empty elements are
ignored, the others are joined with `/` and the result is cleaned; with no
non-empty element the result is empty. -/
def filepathJoin (dir file : String) : String :=
  if dir ≠ "" then filepathClean (dir ++ "/" ++ file)
  else if file ≠ "" then filepathClean file
  else ""

/-- The function `filepath.Dir`: everything up to the last separator, cleaned. -/
def filepathDir (path : String) : String :=
  filepathClean (String.mk (path.data.reverse.dropWhile (· ≠ '/')).reverse)

/-! ## internal/download/download.go -/

/-- The struct `Downloader`. -/
structure Downloader where
  outputDir : String
  format : String
  audioOnly : Bool
  deriving DecidableEq, Repr

/-- `NewDownloader(outputDir, format, audioOnly)`. -/
def NewDownloader (outputDir format : String) (audioOnly : Bool) : Downloader :=
  { outputDir := outputDir, format := format, audioOnly := audioOnly }

/-- What `Download` finds outside the process: the result of
`exec.LookPath(file)`, and the result of `cmd.Run()` for the command
`exec.Command(name, args...)` (`none` when the subprocess ran and exited with
status zero). -/
structure DownloadEnv where
  LookPath : String → Except GoError String
  Run : String → List String → Option GoError

/-- The outside calls of `Download`. -/
inductive DownloadEvent where
  | lookPath (file : String)
  | stderr (text : String)
  | run (name : String) (args : List String)
  deriving DecidableEq, Repr

/-- The argument list built by `Download` (download.go, lines 38-58). -/
def Downloader.args (d : Downloader) (url : String) : List String :=
  let args := ["-o", filepathJoin d.outputDir "%(title)s.%(ext)s"]
  let args :=
    if d.audioOnly then
      args ++ ["-f", "bestaudio/best", "-x", "--audio-format", "mp3", "--audio-quality", "192K"]
    else
      if d.format == "best" then args ++ ["-f", "bestvideo+bestaudio/best"]
      else args ++ ["-f", d.format]
  args ++ [url]

/-- `Downloader.Download(url)`: the error it returns (`none` for nil) and the
outside calls it made, in order. -/
def Downloader.Download (env : DownloadEnv) (d : Downloader) (url : String) :
    Option GoError × List DownloadEvent :=
  match env.LookPath "yt-dlp" with
  | .error _ =>
    (some (.errorString ("yt-dlp not found in PATH. Please install it first:\n" ++
        "  brew install yt-dlp  (macOS)\n" ++
        "  pip install yt-dlp   (pip)")),
      [.lookPath "yt-dlp"])
  | .ok _ =>
    let args := d.args url
    match env.Run "yt-dlp" args with
    | some err =>
      (some (fmtErrorfW "error downloading video: " err),
        [.lookPath "yt-dlp", .stderr ("⬇️  Downloading video: " ++ url ++ "\n\n"),
          .run "yt-dlp" args])
    | none =>
      (none,
        [.lookPath "yt-dlp", .stderr ("⬇️  Downloading video: " ++ url ++ "\n\n"),
          .run "yt-dlp" args, .stderr "\n✅ Download completed successfully\n"])

/-- Whether a call starts a subprocess. -/
def DownloadEvent.startsSubprocess : DownloadEvent → Bool
  | .run _ _ => true
  | _ => false

/-! ## internal/auth/auth.go -/

/-- The fields of `oauth2.Token`. -/
structure Token where
  AccessToken : String
  TokenType : String
  RefreshToken : String
  Expiry : String
  deriving DecidableEq, Repr

/-- The fields of `oauth2.Config` that `google.ConfigFromJSON` fills in. -/
structure Config where
  ClientID : String
  ClientSecret : String
  RedirectURL : String
  AuthURL : String
  TokenURL : String
  Scopes : List String
  deriving DecidableEq, Repr

/-- The `*http.Client` that `config.Client(ctx, token)` returns: it is bound to
the configuration and the token it was made from. -/
structure HTTPClient where
  config : Config
  token : Token
  deriving DecidableEq, Repr

/-- The struct `Client`. -/
structure Client where
  credentialsPath : String
  tokenPath : String
  deriving DecidableEq, Repr

/-- The package variable `scopes`. -/
def scopes : List String :=
  ["https://www.googleapis.com/auth/youtube.readonly",
    "https://www.googleapis.com/auth/youtube.force-ssl"]

/-- The file system as the program sees it: reading a path gives its content
or the error the operating system reports for it. -/
abbrev Files := String → Except GoError String

/-- What the functions of the package find outside the process, the file
contents apart: the library calls `google.ConfigFromJSON`, the JSON decoder
and encoder for tokens, `config.AuthCodeURL`, `fmt.Scan` of the authorization
code, `config.Exchange`, `os.MkdirAll` and `os.OpenFile` (`none` for a nil
error). -/
structure AuthEnv where
  ConfigFromJSON : String → List String → Except GoError Config
  Decode : String → Except GoError Token
  Encode : Token → Except GoError String
  AuthCodeURL : Config → String
  Scan : Except GoError String
  Exchange : Config → String → Except GoError Token
  MkdirAll : String → Option GoError
  OpenFile : String → Option GoError

/-- The outside calls of the package. -/
inductive AuthEvent where
  | readFile (path : String)
  | openRead (path : String)
  | stdout (text : String)
  | scan
  | exchange (authCode : String)
  | slogInfo (msg path : String)
  | slogWarn (msg : String) (err : GoError)
  | mkdirAll (dir : String)
  | openFile (path : String)
  | write (path data : String)
  deriving DecidableEq, Repr

/-- The state the functions of the package act on: the files, and the outside
calls made so far, oldest first. -/
structure AuthState where
  files : Files
  events : List AuthEvent

/-- Record an outside call. -/
def AuthState.log (w : AuthState) (e : AuthEvent) : AuthState :=
  { w with events := w.events ++ [e] }

/-- Replace the content of the file at `path`. -/
def AuthState.setFile (w : AuthState) (path data : String) : AuthState :=
  { w with files := fun q => if q = path then .ok data else w.files q }

/-- The state before the first call. -/
def AuthState.start (files : Files) : AuthState :=
  { files := files, events := [] }

/-- `Client.tokenFromFile()` (auth.go, lines 110-123). -/
def Client.tokenFromFile (env : AuthEnv) (c : Client) (w : AuthState) :
    Except GoError Token × AuthState :=
  let w := w.log (.openRead c.tokenPath)
  match w.files c.tokenPath with
  | .error err => (.error err, w)
  | .ok file =>
    match env.Decode file with
    | .error err => (.error err, w)
    | .ok token => (.ok token, w)

/-- `Client.getTokenFromWeb(config)` (auth.go, lines 91-107). -/
def Client.getTokenFromWeb (env : AuthEnv) (config : Config) (w : AuthState) :
    Except GoError Token × AuthState :=
  let authURL := env.AuthCodeURL config
  let w := w.log (.stdout ("Go to the following link in your browser:\n" ++ authURL ++ "\n\n"))
  let w := w.log (.stdout "Enter authorization code: ")
  let w := w.log .scan
  match env.Scan with
  | .error err => (.error (fmtErrorfW "unable to read authorization code: " err), w)
  | .ok authCode =>
    let w := w.log (.exchange authCode)
    match env.Exchange config authCode with
    | .error err => (.error (fmtErrorfW "unable to retrieve token from web: " err), w)
    | .ok token => (.ok token, w)

/-- `Client.saveToken(token)` (auth.go, lines 126-144): `os.OpenFile` with
`O_TRUNC` empties the file as soon as it succeeds, the encoder then writes
the token. -/
def Client.saveToken (env : AuthEnv) (c : Client) (token : Token) (w : AuthState) :
    Option GoError × AuthState :=
  let w := w.log (.slogInfo "Saving credentials" c.tokenPath)
  let w := w.log (.mkdirAll (filepathDir c.tokenPath))
  match env.MkdirAll (filepathDir c.tokenPath) with
  | some err => (some (fmtErrorfW "failed to create credentials directory: " err), w)
  | none =>
    let w := w.log (.openFile c.tokenPath)
    match env.OpenFile c.tokenPath with
    | some err => (some (fmtErrorfW "failed to create token file: " err), w)
    | none =>
      let w := w.setFile c.tokenPath ""
      match env.Encode token with
      | .error err => (some (fmtErrorfW "failed to encode token: " err), w)
      | .ok data => (none, (w.setFile c.tokenPath data).log (.write c.tokenPath data))

/-- `Client.getHTTPClient(ctx)` (auth.go, lines 65-88). -/
def Client.getHTTPClient (env : AuthEnv) (c : Client) (w : AuthState) :
    Except GoError HTTPClient × AuthState :=
  let w := w.log (.readFile c.credentialsPath)
  match w.files c.credentialsPath with
  | .error err =>
    (.error (.wrapError ("unable to read credentials file " ++ c.credentialsPath ++ ": " ++
        err.Error ++ "\nSee README.md for setup instructions") err), w)
  | .ok credentials =>
    match env.ConfigFromJSON credentials scopes with
    | .error err => (.error (fmtErrorfW "unable to parse credentials: " err), w)
    | .ok config =>
      match c.tokenFromFile env w with
      | (.ok token, w) => (.ok { config := config, token := token }, w)
      | (.error _, w) =>
        match Client.getTokenFromWeb env config w with
        | (.error err, w) => (.error err, w)
        | (.ok token, w) =>
          match c.saveToken env token w with
          | (some err, w) =>
            (.ok { config := config, token := token }, w.log (.slogWarn "Unable to save token" err))
          | (none, w) => (.ok { config := config, token := token }, w)

/-- Whether an outside call is the first thing `saveToken` does for the token
file at `path`; no other function of the package makes it. -/
def AuthEvent.entersSaveToken (path : String) (e : AuthEvent) : Bool :=
  e == .slogInfo "Saving credentials" path

/-- Whether an outside call belongs to the interactive authorization: the
prompt printed on the terminal, the read of the code, and the exchange. -/
def AuthEvent.isInteractive : AuthEvent → Bool
  | .stdout _ => true
  | .scan => true
  | .exchange _ => true
  | _ => false

/-- A client with the default paths of a user whose home is `/home/u`, used in
the examples. -/
def sampleClient : Client :=
  { credentialsPath := "/home/u/.credentials/google_credentials.json",
    tokenPath := "/home/u/.credentials/youtube_token.json" }

/-- A token used in the examples. -/
def sampleToken : Token :=
  { AccessToken := "ya29.a0", TokenType := "Bearer", RefreshToken := "1//0g",
    Expiry := "2030-01-01T00:00:00Z" }

/-- A configuration used in the examples. -/
def sampleConfig : Config :=
  { ClientID := "id", ClientSecret := "secret", RedirectURL := "http://localhost",
    AuthURL := "https://accounts.google.com/o/oauth2/auth",
    TokenURL := "https://oauth2.googleapis.com/token", Scopes := scopes }

/-- An outside world used in the examples, in which every call succeeds: the
file content `cached` decodes to the sample token, and the exchange returns
the sample token. -/
def sampleAuthEnv : AuthEnv :=
  { ConfigFromJSON := fun _ _ => .ok sampleConfig
    Decode := fun data =>
      if data = "cached" then .ok sampleToken else .error (.errorString "unexpected end of JSON")
    Encode := fun _ => .ok "minted"
    AuthCodeURL := fun config => config.AuthURL
    Scan := .ok "4/0A"
    Exchange := fun _ _ => .ok sampleToken
    MkdirAll := fun _ => none
    OpenFile := fun _ => none }

/-- Files used in the examples: the credentials file of the sample client
exists, and its token file exists, with the content `cached`, when
`withToken` is set. -/
def sampleFiles (withToken : Bool) : Files := fun path =>
  if path = sampleClient.credentialsPath then .ok "credentials"
  else if path = sampleClient.tokenPath && withToken then .ok "cached"
  else .error (.errorString "no such file or directory")

/-- Whether an outside call creates or changes something in the file system. -/
def AuthEvent.changesFiles : AuthEvent → Bool
  | .mkdirAll _ => true
  | .openFile _ => true
  | .write _ _ => true
  | _ => false

/-- Whether an outside call reads the file at `path` through `os.Open`, as
`tokenFromFile` does. -/
def AuthEvent.opensForRead (path : String) (e : AuthEvent) : Bool :=
  e == .openRead path

/-- The sample outside world, except that the credentials directory cannot be
created: `os.MkdirAll` fails. -/
def readOnlyAuthEnv : AuthEnv :=
  { sampleAuthEnv with MkdirAll := fun _ => some (.errorString "mkdir: permission denied") }

/-- The sample outside world, except that the token endpoint rejects the
authorization code: `config.Exchange` fails. -/
def rejectingAuthEnv : AuthEnv :=
  { sampleAuthEnv with Exchange := fun _ _ => .error (.errorString "oauth2: invalid_grant") }

/-! ## Terminal output -/

/-- One write to a terminal stream: a text, or the bytes of a Go string that
need not be valid UTF-8 (a string cut at a byte index). -/
inductive Written where
  | text (s : String)
  | bytes (b : List UInt8)
  deriving DecidableEq, Repr

/-- A run of a printing function: what it wrote to standard output and to
standard error, oldest first, and whether it stopped in a nil-pointer panic. -/
structure PrintRun where
  stdout : List Written
  stderr : List Written
  panicked : Bool
  deriving DecidableEq, Repr

/-! ## internal/youtube/playlist.go: List and PrintPlaylistItems -/

/-- The fields of `youtube.PlaylistSnippet` the program reads. -/
structure PlaylistSnippet where
  Title : String
  Description : String
  deriving DecidableEq, Repr

/-- The fields of `youtube.PlaylistContentDetails` the program reads. -/
structure PlaylistContentDetails where
  ItemCount : Int
  deriving DecidableEq, Repr

/-- A `*youtube.Playlist`; the two parts are pointers in Go. -/
structure Playlist where
  Id : String
  Snippet : Option PlaylistSnippet
  ContentDetails : Option PlaylistContentDetails
  deriving DecidableEq, Repr

/-- A `PlaylistsListCall`; a parameter is `none` when its setter was never
called on the call. -/
structure PlaylistsListCall where
  part : List String
  mine : Option Bool
  maxResults : Option Int
  pageToken : Option String
  deriving DecidableEq, Repr

/-- The fields of `youtube.PlaylistListResponse`. -/
structure PlaylistListResponse where
  Items : List Playlist
  NextPageToken : String
  deriving DecidableEq, Repr

/-- The remote side of `call.Do()` for playlists. -/
abbrev PlaylistsApi (σ : Type) :=
  σ → PlaylistsListCall → Except GoError PlaylistListResponse × σ

/-- A run of `List`: the Go return values, the round trips made, oldest
first, and the state the API is left in. -/
structure ListRun (σ : Type) where
  returned : List Playlist × Option GoError
  exchanges : List (PlaylistsListCall × Except GoError PlaylistListResponse)
  server : σ

/-- `PlaylistService.List(ctx, limit)` (playlist.go, lines 23-34) against the
API `Do` in state `s`. -/
def PlaylistService.List {σ : Type} (Do : PlaylistsApi σ) (s : σ) (limit : Int) : ListRun σ :=
  let call : PlaylistsListCall :=
    { part := ["snippet", "contentDetails"], mine := some true, maxResults := some limit,
      pageToken := none }
  match Do s call with
  | (.error err, s') =>
    { returned := ([], some (fmtErrorfW "error fetching playlists: " err)),
      exchanges := [(call, .error err)], server := s' }
  | (.ok response, s') =>
    { returned := (response.Items, none), exchanges := [(call, .ok response)], server := s' }

/-- The `for` loop of `PrintPlaylistItems` (playlist.go, lines 141-146) from
index `idx` on: the writes to standard output, and whether the loop stopped in
a nil-pointer panic.  The arguments of a `Printf` are evaluated before it
writes. -/
def PrintPlaylistItemsLoop : Nat → List PlaylistItem → List Written × Bool
  | _, [] => ([], false)
  | idx, video :: rest =>
    match video.Snippet with
    | none => ([], true)
    | some snippet =>
      match video.ContentDetails with
      | none => ([.text (toString (idx + 1) ++ ". " ++ snippet.Title ++ "\n")], true)
      | some details =>
        let tail := PrintPlaylistItemsLoop (idx + 1) rest
        (.text (toString (idx + 1) ++ ". " ++ snippet.Title ++ "\n") ::
          .text ("   Video ID: " ++ details.VideoId ++ "\n") ::
          .text ("   Channel: " ++ snippet.ChannelTitle ++ "\n") ::
          .text ("   Link: https://www.youtube.com/watch?v=" ++ details.VideoId ++ "\n\n") ::
          tail.1, tail.2)

/-- `PrintPlaylistItems(items)` (playlist.go, lines 134-147). -/
def PrintPlaylistItems (items : List PlaylistItem) : PrintRun :=
  if items.length == 0 then
    { stdout := [.text "No videos found in this playlist.\n"], stderr := [], panicked := false }
  else
    let body := PrintPlaylistItemsLoop 0 items
    { stdout := body.1,
      stderr := [.text ("✅ Found " ++ toString items.length ++ " video(s):\n\n")],
      panicked := body.2 }

/-- The four writes of the entry numbered `i` for an item with the given
title, video id and channel. -/
def playlistItemEntry (i : Nat) (title videoId channel : String) : List Written :=
  [.text (toString i ++ ". " ++ title ++ "\n"),
    .text ("   Video ID: " ++ videoId ++ "\n"),
    .text ("   Channel: " ++ channel ++ "\n"),
    .text ("   Link: https://www.youtube.com/watch?v=" ++ videoId ++ "\n\n")]

/-! ## internal/youtube/video.go -/

/-- The fields of `youtube.VideoSnippet` the program reads.  The description
is kept as the bytes of the Go string, because `PrintVideo` cuts it at a byte
index. -/
structure VideoSnippet where
  Title : String
  ChannelTitle : String
  PublishedAt : String
  Description : List UInt8
  deriving DecidableEq, Repr

/-- The fields of `youtube.VideoContentDetails` the program reads. -/
structure VideoContentDetails where
  Duration : String
  deriving DecidableEq, Repr

/-- The fields of `youtube.VideoStatistics` the program reads (`uint64` in Go). -/
structure VideoStatistics where
  ViewCount : Nat
  LikeCount : Nat
  CommentCount : Nat
  deriving DecidableEq, Repr

/-- A `*youtube.Video`; the three parts are pointers in Go. -/
structure Video where
  Id : String
  Snippet : Option VideoSnippet
  ContentDetails : Option VideoContentDetails
  Statistics : Option VideoStatistics
  deriving DecidableEq, Repr

/-- A `VideosListCall` as built by `Videos.List(part).Id(videoID)`. -/
structure VideosListCall where
  part : List String
  id : String
  deriving DecidableEq, Repr

/-- The fields of `youtube.VideoListResponse` that `Get` reads. -/
structure VideoListResponse where
  Items : List Video
  deriving DecidableEq, Repr

/-- `VideoService.Get(ctx, videoID)` (video.go, lines 21-33) against the API
`Do`: the video returned (`none` for nil) and the error (`none` for nil). -/
def VideoService.Get (Do : VideosListCall → Except GoError VideoListResponse)
    (videoID : String) : Option Video × Option GoError :=
  let call : VideosListCall :=
    { part := ["snippet", "contentDetails", "statistics"], id := videoID }
  match Do call with
  | .error err => (none, some (fmtErrorfW "error fetching video: " err))
  | .ok response =>
    if response.Items.length == 0 then
      (none, some (.errorString ("video not found: " ++ videoID)))
    else (response.Items[0]?, none)

/-- The bytes of a text. -/
def utf8 (s : String) : List UInt8 := s.toUTF8.data.toList

/-- The Go slice expression `s[:hi]` on a string: `none` for the run-time
panic when `hi` is beyond the length. -/
def goSliceTo (s : List UInt8) (hi : Nat) : Option (List UInt8) :=
  if hi ≤ s.length then some (s.take hi) else none

/-- The variable `desc` of `PrintVideo` after lines 68-71 of video.go. -/
def printedDescription (description : List UInt8) : Option (List UInt8) :=
  let desc := description
  if desc.length > 500 then (goSliceTo desc 500).map (· ++ utf8 "...") else some desc

/-- `PrintVideo(video)` (video.go, lines 51-73).  The arguments of a `Printf`
are evaluated before it writes, so a nil part stops the run before the write
that reads it. -/
def PrintVideo (video : Video) : PrintRun :=
  match video.Snippet with
  | none => { stdout := [], stderr := [], panicked := true }
  | some snippet =>
    let out : List Written :=
      [.text ("📹 " ++ snippet.Title ++ "\n"),
        .text ("   Video ID: " ++ video.Id ++ "\n"),
        .text ("   Channel: " ++ snippet.ChannelTitle ++ "\n"),
        .text ("   Published: " ++ snippet.PublishedAt ++ "\n")]
    match video.ContentDetails with
    | none => { stdout := out, stderr := [], panicked := true }
    | some details =>
      let out := out ++ [.text ("   Duration: " ++ details.Duration ++ "\n")]
      match video.Statistics with
      | none => { stdout := out, stderr := [], panicked := true }
      | some stats =>
        let out := out ++
          [.text ("   Views: " ++ toString stats.ViewCount ++ "\n"),
            .text ("   Likes: " ++ toString stats.LikeCount ++ "\n")]
        let out :=
          if stats.CommentCount > 0 then
            out ++ [.text ("   Comments: " ++ toString stats.CommentCount ++ "\n")]
          else out
        let out := out ++ [.text ("   Link: https://www.youtube.com/watch?v=" ++ video.Id ++ "\n")]
        match printedDescription snippet.Description with
        | none => { stdout := out, stderr := [], panicked := true }
        | some desc =>
          { stdout := out ++ [.bytes (utf8 "\n   Description:\n   " ++ desc ++ utf8 "\n")],
            stderr := [], panicked := false }

/-- A video with all three parts and the given description, for the examples. -/
def sampleVideo (description : List UInt8) : Video :=
  { Id := "dQw4w9WgXcQ",
    Snippet := some
      { Title := "title", ChannelTitle := "channel", PublishedAt := "2009-10-25T06:57:33Z",
        Description := description },
    ContentDetails := some { Duration := "PT3M33S" },
    Statistics := some { ViewCount := 1000, LikeCount := 10, CommentCount := 0 } }

/-! ## src/src/cli.go (the command before the refactoring) -/

/-- The argument list built by the `runDownload` of the package `main`
(cli.go, lines 171-191) from the package variables `outputDir`, `format` and
`audioOnly` and the URL. -/
def Legacy.runDownloadArgs (outputDir format : String) (audioOnly : Bool) (url : String) :
    List String :=
  let args := ["-o", filepathJoin outputDir "%(title)s.%(ext)s"]
  let args :=
    if audioOnly then
      args ++ ["-f", "bestaudio/best", "-x", "--audio-format", "mp3", "--audio-quality", "192K"]
    else
      if format == "best" then args ++ ["-f", "bestvideo+bestaudio/best"]
      else args ++ ["-f", format]
  args ++ [url]

/-- `runDownload(cmd, args)` of the package `main` (cli.go, lines 159-203),
with the package variables `outputDir`, `format` and `audioOnly` that the
flags fill in, and `url` for `args[0]`: the error it returns and the outside
calls it made, in order. -/
def Legacy.runDownload (env : DownloadEnv) (outputDir format : String) (audioOnly : Bool)
    (url : String) : Option GoError × List DownloadEvent :=
  match env.LookPath "yt-dlp" with
  | .error _ =>
    (some (.errorString ("yt-dlp not found in PATH. Please install it first:\n" ++
        "  brew install yt-dlp  (macOS)\n" ++
        "  pip install yt-dlp   (pip)")),
      [.lookPath "yt-dlp"])
  | .ok _ =>
    let args := Legacy.runDownloadArgs outputDir format audioOnly url
    match env.Run "yt-dlp" args with
    | some err =>
      (some (fmtErrorfW "error downloading video: " err),
        [.lookPath "yt-dlp", .stderr ("⬇️  Downloading video: " ++ url ++ "\n\n"),
          .run "yt-dlp" args])
    | none =>
      (none,
        [.lookPath "yt-dlp", .stderr ("⬇️  Downloading video: " ++ url ++ "\n\n"),
          .run "yt-dlp" args, .stderr "\n✅ Download completed successfully\n"])

/-- The argument lists of the subprocesses a run started, in order. -/
def startedWith : List DownloadEvent → List (List String)
  | [] => []
  | .run _ args :: rest => args :: startedWith rest
  | _ :: rest => startedWith rest

/-! ## internal/cli/download.go -/

/-- The values of the flags `--output`, `--format` and `--audio-only` of the
`download` command. -/
structure Cli.DownloadFlags where
  outputDir : String
  format : String
  audioOnly : Bool
  deriving DecidableEq, Repr

/-- The default values `createDownloadCmd` registers for the three flags
(download.go, lines 29-31). -/
def Cli.defaultDownloadFlags : Cli.DownloadFlags :=
  { outputDir := ".", format := "best", audioOnly := false }

/-- `runDownload(url, outputDir, format, audioOnly)` of the package `cli`
(download.go, lines 36-39). -/
def Cli.runDownload (env : DownloadEnv) (url outputDir format : String) (audioOnly : Bool) :
    Option GoError × List DownloadEvent :=
  let downloader := NewDownloader outputDir format audioOnly
  downloader.Download env url

/-- The `RunE` of the `download` command (download.go, lines 24-26) for the
single argument `url` and the flag values `flags`. -/
def Cli.downloadRunE (env : DownloadEnv) (flags : Cli.DownloadFlags) (url : String) :
    Option GoError × List DownloadEvent :=
  Cli.runDownload env url flags.outputDir flags.format flags.audioOnly

/-! ## Pagination: helper lemmas -/

theorem scriptExchanges_length (playlistID : String) (limit : Int) (script : List DoResult) :
    ∀ tok, (scriptExchanges playlistID limit tok script).length = script.length := by
  induction script with
  | nil => intro tok; rfl
  | cons r rs ih =>
    intro tok
    cases r with
    | ok p => simp [scriptExchanges, ih]
    | error e => simp [scriptExchanges, ih]

/-- A script whose first empty continuation token comes after the pages `pre`:
the loop serves `pre` and `last`, returns everything it collected, and leaves
`rest` unserved. -/
theorem GetItemsLoop_scripted_pages (playlistID : String) (limit : Int)
    (last : PlaylistItemListResponse) (rest : List DoResult)
    (hlast : last.NextPageToken = "") (pre : List PlaylistItemListResponse) :
    ∀ (fuel : Nat) (tok : String) (acc : List PlaylistItem),
      (∀ p ∈ pre, p.NextPageToken ≠ "") → pre.length < fuel →
      GetItemsLoop scriptedApi playlistID limit fuel
          (pre.map Except.ok ++ Except.ok last :: rest) tok acc =
        { returned := some (acc ++ ((pre ++ [last]).map (·.Items)).flatten, none),
          exchanges := scriptExchanges playlistID limit tok
            ((pre ++ [last]).map Except.ok),
          server := rest } := by
  induction pre with
  | nil =>
    intro fuel tok acc _ hfuel
    obtain ⟨n, rfl⟩ : ∃ n, fuel = n + 1 := ⟨fuel - 1, by simp at hfuel; omega⟩
    simp [GetItemsLoop, scriptedApi, scriptExchanges, hlast]
  | cons p ps ih =>
    intro fuel tok acc hpre hfuel
    obtain ⟨n, rfl⟩ : ∃ n, fuel = n + 1 := ⟨fuel - 1, by simp at hfuel; omega⟩
    have hp : p.NextPageToken ≠ "" := hpre p (by simp)
    have hps : ∀ q ∈ ps, q.NextPageToken ≠ "" := fun q hq => hpre q (by simp [hq])
    have hn : ps.length < n := by simp at hfuel; omega
    simp [GetItemsLoop, scriptedApi, scriptExchanges, hp, ih n p.NextPageToken _ hps hn,
      List.append_assoc]

/-- A script whose first failure comes after the pages `pre`, all with a
continuation token: the loop serves `pre` and the failing entry, returns the
wrapped error with no items, and leaves `rest` unserved. -/
theorem GetItemsLoop_scripted_failure (playlistID : String) (limit : Int)
    (err : GoError) (rest : List DoResult) (pre : List PlaylistItemListResponse) :
    ∀ (fuel : Nat) (tok : String) (acc : List PlaylistItem),
      (∀ p ∈ pre, p.NextPageToken ≠ "") → pre.length < fuel →
      GetItemsLoop scriptedApi playlistID limit fuel
          (pre.map Except.ok ++ Except.error err :: rest) tok acc =
        { returned := some ([], some (fmtErrorfW "error fetching playlist items: " err)),
          exchanges := scriptExchanges playlistID limit tok
            (pre.map Except.ok ++ [Except.error err]),
          server := rest } := by
  induction pre with
  | nil =>
    intro fuel tok acc _ hfuel
    obtain ⟨n, rfl⟩ : ∃ n, fuel = n + 1 := ⟨fuel - 1, by simp at hfuel; omega⟩
    simp [GetItemsLoop, scriptedApi, scriptExchanges]
  | cons p ps ih =>
    intro fuel tok acc hpre hfuel
    obtain ⟨n, rfl⟩ : ∃ n, fuel = n + 1 := ⟨fuel - 1, by simp at hfuel; omega⟩
    have hp : p.NextPageToken ≠ "" := hpre p (by simp)
    have hps : ∀ q ∈ ps, q.NextPageToken ≠ "" := fun q hq => hpre q (by simp [hq])
    have hn : ps.length < n := by simp at hfuel; omega
    simp [GetItemsLoop, scriptedApi, scriptExchanges, hp, ih n p.NextPageToken _ hps hn]

/-- Against a script, the loop returns within one iteration more than the
script has entries. -/
theorem GetItemsLoop_scripted_returns (playlistID : String) (limit : Int)
    (script : List DoResult) :
    ∀ (fuel : Nat) (tok : String) (acc : List PlaylistItem), script.length < fuel →
      (GetItemsLoop scriptedApi playlistID limit fuel script tok acc).returned.isSome = true := by
  induction script with
  | nil =>
    intro fuel tok acc hfuel
    obtain ⟨n, rfl⟩ : ∃ n, fuel = n + 1 := ⟨fuel - 1, by simp at hfuel; omega⟩
    simp [GetItemsLoop, scriptedApi]
  | cons r rs ih =>
    intro fuel tok acc hfuel
    obtain ⟨n, rfl⟩ : ∃ n, fuel = n + 1 := ⟨fuel - 1, by simp at hfuel; omega⟩
    have hn : rs.length < n := by simp at hfuel; omega
    cases r with
    | error e => simp [GetItemsLoop, scriptedApi]
    | ok p =>
      by_cases hp : p.NextPageToken = ""
      · simp [GetItemsLoop, scriptedApi, hp]
      · simp [GetItemsLoop, scriptedApi, hp, ih n p.NextPageToken _ hn]

/-- Against any API, every call of the loop carries the playlist id, the limit
and the two parts; the first call is built from the loop's `pageToken`, and
each later call carries the continuation token of the page before it. -/
theorem GetItemsLoop_calls {σ : Type} (Do : PlaylistItemsApi σ) (playlistID : String)
    (limit : Int) :
    ∀ (fuel : Nat) (s : σ) (tok : String) (acc : List PlaylistItem),
      (∀ e, (GetItemsLoop Do playlistID limit fuel s tok acc).exchanges.head? = some e →
          e.call = newListCall playlistID limit tok) ∧
      List.Chain' Follows (GetItemsLoop Do playlistID limit fuel s tok acc).exchanges ∧
      (∀ e ∈ (GetItemsLoop Do playlistID limit fuel s tok acc).exchanges,
          e.call.playlistId = playlistID ∧ e.call.maxResults = limit ∧
          e.call.part = ["snippet", "contentDetails"]) := by
  have hcall : ∀ tok, (newListCall playlistID limit tok).playlistId = playlistID ∧
      (newListCall playlistID limit tok).maxResults = limit ∧
      (newListCall playlistID limit tok).part = ["snippet", "contentDetails"] := by
    intro tok
    unfold newListCall
    by_cases h : tok = "" <;> simp [h]
  intro fuel
  induction fuel with
  | zero => intro s tok acc; simp [GetItemsLoop]
  | succ n ih =>
    intro s tok acc
    rcases hdo : Do s (newListCall playlistID limit tok) with ⟨r, s'⟩
    cases r with
    | error err =>
      simp only [GetItemsLoop, hdo]
      refine ⟨?_, ?_, ?_⟩
      · intro e he; simp at he; subst he; rfl
      · simp
      · intro e he; simp at he; subst he; exact hcall tok
    | ok resp =>
      by_cases hresp : resp.NextPageToken = ""
      · simp only [GetItemsLoop, hdo, hresp, beq_self_eq_true, if_true]
        refine ⟨?_, ?_, ?_⟩
        · intro e he; simp at he; subst he; rfl
        · simp
        · intro e he; simp at he; subst he; exact hcall tok
      · have hne : (resp.NextPageToken == "") = false := by simpa using hresp
        simp only [GetItemsLoop, hdo, hne, Bool.false_eq_true, if_false]
        obtain ⟨ih1, ih2, ih3⟩ := ih s' resp.NextPageToken (acc ++ resp.Items)
        refine ⟨?_, ?_, ?_⟩
        · intro e he; simp at he; subst he; rfl
        · rw [List.chain'_cons']
          refine ⟨?_, ih2⟩
          intro e he
          have hc := ih1 e (by simpa using he)
          refine ⟨resp, rfl, ?_⟩
          rw [hc]
          simp [newListCall, hresp]
        · intro e he
          rcases List.mem_cons.mp he with h | h
          · subst h; exact hcall tok
          · exact ih3 e h

/-- Against any API, a failed call is the last one the loop makes, and the loop
then returns the wrapped error and no items. -/
theorem GetItemsLoop_failure {σ : Type} (Do : PlaylistItemsApi σ) (playlistID : String)
    (limit : Int) :
    ∀ (fuel : Nat) (s : σ) (tok : String) (acc : List PlaylistItem) (i : Nat) (e : Exchange)
      (err : GoError),
      (GetItemsLoop Do playlistID limit fuel s tok acc).exchanges[i]? = some e →
      e.reply = .error err →
      (GetItemsLoop Do playlistID limit fuel s tok acc).returned =
          some ([], some (fmtErrorfW "error fetching playlist items: " err)) ∧
        i + 1 = (GetItemsLoop Do playlistID limit fuel s tok acc).exchanges.length := by
  intro fuel
  induction fuel with
  | zero => intro s tok acc i e err he; simp [GetItemsLoop] at he
  | succ n ih =>
    intro s tok acc i e err
    rcases hdo : Do s (newListCall playlistID limit tok) with ⟨r, s'⟩
    cases r with
    | error err' =>
      simp only [GetItemsLoop, hdo]
      intro he herr
      cases i with
      | zero =>
        simp at he; subst he
        simp only [Except.error.injEq] at herr
        subst herr; simp
      | succ j => simp at he
    | ok resp =>
      by_cases hresp : resp.NextPageToken = ""
      · simp only [GetItemsLoop, hdo, hresp, beq_self_eq_true, if_true]
        intro he herr
        cases i with
        | zero => simp at he; subst he; simp at herr
        | succ j => simp at he
      · have hne : (resp.NextPageToken == "") = false := by simpa using hresp
        simp only [GetItemsLoop, hdo, hne, Bool.false_eq_true, if_false]
        intro he herr
        cases i with
        | zero => simp at he; subst he; simp at herr
        | succ j =>
          have hj := ih s' resp.NextPageToken (acc ++ resp.Items) j e err (by simpa using he) herr
          exact ⟨hj.1, by rw [List.length_cons]; omega⟩

/-! ## Pagination: the claims -/

/-- C1: against an API that answers the successive requests with the pages
`pre ++ [last]`, every page of `pre` carrying a non-empty continuation token
and `last` an empty one, `GetItems` returns (given one loop iteration per
page) exactly the items of the pages concatenated in page order, and no
error. -/
theorem GetItems_returns_concatenation (playlistID : String) (limit : Int)
    (pre : List PlaylistItemListResponse) (last : PlaylistItemListResponse) (fuel : Nat)
    (hpre : ∀ p ∈ pre, p.NextPageToken ≠ "") (hlast : last.NextPageToken = "")
    (hfuel : pre.length < fuel) :
    (GetItems scriptedApi ((pre ++ [last]).map Except.ok) playlistID limit fuel).returned =
      some (((pre ++ [last]).map (·.Items)).flatten, none) := by
  have h := GetItemsLoop_scripted_pages playlistID limit last [] hlast pre fuel "" [] hpre hfuel
  have hs : (pre ++ [last]).map Except.ok =
      (pre.map Except.ok ++ [Except.ok last] : List DoResult) := by simp
  rw [GetItems, hs, h]
  simp

/-- An instance of C1: three pages of one, two and one items. -/
theorem GetItems_returns_concatenation_witness :
    (∀ p ∈ [(⟨[sampleItem "i1" "a" "va"], "t1"⟩ : PlaylistItemListResponse),
        ⟨[sampleItem "i2" "b" "vb", sampleItem "i3" "c" "vc"], "t2"⟩], p.NextPageToken ≠ "") ∧
    (GetItems scriptedApi
        [.ok ⟨[sampleItem "i1" "a" "va"], "t1"⟩,
          .ok ⟨[sampleItem "i2" "b" "vb", sampleItem "i3" "c" "vc"], "t2"⟩,
          .ok ⟨[sampleItem "i4" "d" "vd"], ""⟩] "PL1" 50 3).returned =
      some ([sampleItem "i1" "a" "va", sampleItem "i2" "b" "vb", sampleItem "i3" "c" "vc",
        sampleItem "i4" "d" "vd"], none) :=
  ⟨by decide,
    GetItems_returns_concatenation "PL1" 50
      [⟨[sampleItem "i1" "a" "va"], "t1"⟩,
        ⟨[sampleItem "i2" "b" "vb", sampleItem "i3" "c" "vc"], "t2"⟩]
      ⟨[sampleItem "i4" "d" "vd"], ""⟩ 3 (by decide) rfl (by decide)⟩

/-- C2: against a scripted API the loop of `GetItems` always returns, within
one iteration more than the script has entries; and when the first page with
an empty continuation token is the one after the pages `pre`, `GetItems`
returns the items of those pages, has made exactly `pre.length + 1` requests,
and has left every later entry `rest` of the script unserved. -/
theorem GetItems_stops_at_first_empty_token (playlistID : String) (limit : Int)
    (script : List DoResult) (fuel' : Nat) (hscript : script.length < fuel')
    (pre : List PlaylistItemListResponse) (last : PlaylistItemListResponse)
    (rest : List DoResult) (fuel : Nat)
    (hpre : ∀ p ∈ pre, p.NextPageToken ≠ "") (hlast : last.NextPageToken = "")
    (hfuel : pre.length < fuel) :
    (GetItems scriptedApi script playlistID limit fuel').returned.isSome = true ∧
    (GetItems scriptedApi (pre.map Except.ok ++ Except.ok last :: rest)
        playlistID limit fuel).returned =
      some (((pre ++ [last]).map (·.Items)).flatten, none) ∧
    (GetItems scriptedApi (pre.map Except.ok ++ Except.ok last :: rest)
        playlistID limit fuel).exchanges.length = pre.length + 1 ∧
    (GetItems scriptedApi (pre.map Except.ok ++ Except.ok last :: rest)
        playlistID limit fuel).server = rest := by
  have h := GetItemsLoop_scripted_pages playlistID limit last rest hlast pre fuel "" [] hpre hfuel
  refine ⟨GetItemsLoop_scripted_returns playlistID limit script fuel' "" [] hscript, ?_, ?_, ?_⟩
  · rw [GetItems, h]; simp
  · rw [GetItems, h]; simp [scriptExchanges_length]
  · rw [GetItems, h]

/-- An instance of C2: the second page has the first empty token, a third page
and a failure are scripted after it. -/
theorem GetItems_stops_at_first_empty_token_witness :
    (GetItems scriptedApi [.ok ⟨[sampleItem "i1" "a" "va"], "t1"⟩] "PL1" 50 2).returned.isSome
      = true ∧
    (GetItems scriptedApi
        [.ok ⟨[sampleItem "i1" "a" "va"], "t1"⟩, .ok ⟨[sampleItem "i2" "b" "vb"], ""⟩,
          .ok ⟨[sampleItem "i3" "c" "vc"], ""⟩, .error (.errorString "quota")]
        "PL1" 50 2).returned =
      some ([sampleItem "i1" "a" "va", sampleItem "i2" "b" "vb"], none) ∧
    (GetItems scriptedApi
        [.ok ⟨[sampleItem "i1" "a" "va"], "t1"⟩, .ok ⟨[sampleItem "i2" "b" "vb"], ""⟩,
          .ok ⟨[sampleItem "i3" "c" "vc"], ""⟩, .error (.errorString "quota")]
        "PL1" 50 2).exchanges.length = 2 ∧
    (GetItems scriptedApi
        [.ok ⟨[sampleItem "i1" "a" "va"], "t1"⟩, .ok ⟨[sampleItem "i2" "b" "vb"], ""⟩,
          .ok ⟨[sampleItem "i3" "c" "vc"], ""⟩, .error (.errorString "quota")]
        "PL1" 50 2).server =
      [.ok ⟨[sampleItem "i3" "c" "vc"], ""⟩, .error (.errorString "quota")] :=
  GetItems_stops_at_first_empty_token "PL1" 50
    [.ok ⟨[sampleItem "i1" "a" "va"], "t1"⟩] 2 (by decide)
    [⟨[sampleItem "i1" "a" "va"], "t1"⟩] ⟨[sampleItem "i2" "b" "vb"], ""⟩
    [.ok ⟨[sampleItem "i3" "c" "vc"], ""⟩, .error (.errorString "quota")] 2
    (by decide) rfl (by decide)

/-- C3: in any run of `GetItems`, against any API and for any number of loop
iterations, the first request carries no page token, each later request
carries exactly the continuation token of the response immediately before it
(which was a page, not an error), and every request carries the playlist id,
the limit as `maxResults`, and the parts `snippet` and `contentDetails`. -/
theorem GetItems_request_tokens {σ : Type} (Do : PlaylistItemsApi σ) (s : σ)
    (playlistID : String) (limit : Int) (fuel : Nat) :
    (∀ e, (GetItems Do s playlistID limit fuel).exchanges.head? = some e →
        e.call.pageToken = none) ∧
    List.Chain' Follows (GetItems Do s playlistID limit fuel).exchanges ∧
    (∀ e ∈ (GetItems Do s playlistID limit fuel).exchanges,
        e.call.playlistId = playlistID ∧ e.call.maxResults = limit ∧
        e.call.part = ["snippet", "contentDetails"]) := by
  obtain ⟨h1, h2, h3⟩ := GetItemsLoop_calls Do playlistID limit fuel s "" []
  refine ⟨?_, h2, h3⟩
  intro e he
  rw [h1 e he]
  rfl

/-- An instance of C3: a run of three requests, whose page tokens are none,
`t1` and `t2`. -/
theorem GetItems_request_tokens_witness :
    (GetItems scriptedApi
        [.ok ⟨[sampleItem "i1" "a" "va"], "t1"⟩, .ok ⟨[sampleItem "i2" "b" "vb"], "t2"⟩,
          .ok ⟨[sampleItem "i3" "c" "vc"], ""⟩] "PL1" 1 5).exchanges.map (·.call.pageToken) =
      [none, some "t1", some "t2"] ∧
    ((∀ e, (GetItems scriptedApi
        [.ok ⟨[sampleItem "i1" "a" "va"], "t1"⟩, .ok ⟨[sampleItem "i2" "b" "vb"], "t2"⟩,
          .ok ⟨[sampleItem "i3" "c" "vc"], ""⟩] "PL1" 1 5).exchanges.head? = some e →
        e.call.pageToken = none) ∧
    List.Chain' Follows (GetItems scriptedApi
        [.ok ⟨[sampleItem "i1" "a" "va"], "t1"⟩, .ok ⟨[sampleItem "i2" "b" "vb"], "t2"⟩,
          .ok ⟨[sampleItem "i3" "c" "vc"], ""⟩] "PL1" 1 5).exchanges ∧
    (∀ e ∈ (GetItems scriptedApi
        [.ok ⟨[sampleItem "i1" "a" "va"], "t1"⟩, .ok ⟨[sampleItem "i2" "b" "vb"], "t2"⟩,
          .ok ⟨[sampleItem "i3" "c" "vc"], ""⟩] "PL1" 1 5).exchanges,
        e.call.playlistId = "PL1" ∧ e.call.maxResults = 1 ∧
        e.call.part = ["snippet", "contentDetails"])) :=
  ⟨by decide,
    GetItems_request_tokens scriptedApi
      [.ok ⟨[sampleItem "i1" "a" "va"], "t1"⟩, .ok ⟨[sampleItem "i2" "b" "vb"], "t2"⟩,
        .ok ⟨[sampleItem "i3" "c" "vc"], ""⟩] "PL1" 1 5⟩

/-- C4, at a failing input: with limit 1, against an API that answers each
request with a page of one item (within `maxResults = 1`) and a continuation
token while items remain, `GetItems` returns all three items of the playlist:
more than the limit. -/
theorem GetItems_returns_more_than_limit :
    (∀ r ∈ [(⟨[sampleItem "i1" "a" "va"], "t1"⟩ : PlaylistItemListResponse),
        ⟨[sampleItem "i2" "b" "vb"], "t2"⟩, ⟨[sampleItem "i3" "c" "vc"], ""⟩],
      r.Items.length ≤ 1) ∧
    (GetItems scriptedApi
        [.ok ⟨[sampleItem "i1" "a" "va"], "t1"⟩, .ok ⟨[sampleItem "i2" "b" "vb"], "t2"⟩,
          .ok ⟨[sampleItem "i3" "c" "vc"], ""⟩] "PL1" 1 3).returned =
      some ([sampleItem "i1" "a" "va", sampleItem "i2" "b" "vb", sampleItem "i3" "c" "vc"],
        none) ∧
    ¬ ([sampleItem "i1" "a" "va", sampleItem "i2" "b" "vb",
        sampleItem "i3" "c" "vc"].length ≤ 1) := by
  refine ⟨by decide, by decide, by decide⟩

/-- C9: in any run of `GetItems`, against any API, when the request of index
`i` fails with `err`, that request is the last one of the run, and `GetItems`
returns no items together with an error that wraps `err` and whose message is
`error fetching playlist items: ` followed by the message of `err`. -/
theorem GetItems_failed_request {σ : Type} (Do : PlaylistItemsApi σ) (s : σ)
    (playlistID : String) (limit : Int) (fuel i : Nat) (e : Exchange) (err : GoError)
    (he : (GetItems Do s playlistID limit fuel).exchanges[i]? = some e)
    (herr : e.reply = .error err) :
    (GetItems Do s playlistID limit fuel).returned =
        some ([], some (.wrapError ("error fetching playlist items: " ++ err.Error) err)) ∧
      i + 1 = (GetItems Do s playlistID limit fuel).exchanges.length :=
  GetItemsLoop_failure Do playlistID limit fuel s "" [] i e err he herr

/-- An instance of C9: two pages are fetched, the third request fails, and a
fourth page is scripted after the failure. -/
theorem GetItems_failed_request_witness :
    (GetItems scriptedApi
        [.ok ⟨[sampleItem "i1" "a" "va"], "t1"⟩, .ok ⟨[sampleItem "i2" "b" "vb"], "t2"⟩,
          .error (.errorString "quotaExceeded"), .ok ⟨[sampleItem "i3" "c" "vc"], ""⟩]
        "PL1" 50 9).returned =
      some ([], some (.wrapError "error fetching playlist items: quotaExceeded"
        (.errorString "quotaExceeded"))) ∧
    2 + 1 = (GetItems scriptedApi
        [.ok ⟨[sampleItem "i1" "a" "va"], "t1"⟩, .ok ⟨[sampleItem "i2" "b" "vb"], "t2"⟩,
          .error (.errorString "quotaExceeded"), .ok ⟨[sampleItem "i3" "c" "vc"], ""⟩]
        "PL1" 50 9).exchanges.length :=
  GetItems_failed_request scriptedApi
    [.ok ⟨[sampleItem "i1" "a" "va"], "t1"⟩, .ok ⟨[sampleItem "i2" "b" "vb"], "t2"⟩,
      .error (.errorString "quotaExceeded"), .ok ⟨[sampleItem "i3" "c" "vc"], ""⟩]
    "PL1" 50 9 2 ⟨newListCall "PL1" 50 "t2", .error (.errorString "quotaExceeded")⟩
    (.errorString "quotaExceeded") rfl rfl

/-! ## Downloader: the claims -/

/-- C5: when audio-only is set, whatever the output directory, the format
string and the URL are, the argument list `Download` builds, and the only one
it starts `yt-dlp` with, is `-o`, the joined output template, `-f`,
`bestaudio/best`, `-x`, `--audio-format`, `mp3`, `--audio-quality`, `192K` and
the URL; the list is the same for every other format string. -/
theorem Download_args_audio_only (env : DownloadEnv) (d : Downloader) (url : String)
    (haudio : d.audioOnly = true) :
    d.args url =
        ["-o", filepathJoin d.outputDir "%(title)s.%(ext)s", "-f", "bestaudio/best", "-x",
          "--audio-format", "mp3", "--audio-quality", "192K", url] ∧
    (∀ format, Downloader.args { d with format := format } url = d.args url) ∧
    (∀ path, env.LookPath "yt-dlp" = .ok path →
        DownloadEvent.run "yt-dlp" (d.args url) ∈ (d.Download env url).2) ∧
    (∀ name args, DownloadEvent.run name args ∈ (d.Download env url).2 →
        name = "yt-dlp" ∧ args = d.args url) := by
  refine ⟨by simp [Downloader.args, haudio], ?_, ?_, ?_⟩
  · intro format; simp [Downloader.args, haudio]
  · intro path hpath
    unfold Downloader.Download
    rw [hpath]
    cases hrun : env.Run "yt-dlp" (d.args url) <;> simp [hrun]
  · intro name args
    unfold Downloader.Download
    cases hlook : env.LookPath "yt-dlp" <;>
      cases hrun : env.Run "yt-dlp" (d.args url) <;> simp [hrun]

/-- An instance of C5: audio-only with the format `137+140`, which does not
show in the argument list. -/
theorem Download_args_audio_only_witness :
    Downloader.args (NewDownloader "music" "137+140" true) "https://youtu.be/x" =
        ["-o", "music/%(title)s.%(ext)s", "-f", "bestaudio/best", "-x",
          "--audio-format", "mp3", "--audio-quality", "192K", "https://youtu.be/x"] ∧
    (∀ format, Downloader.args { NewDownloader "music" "137+140" true with format := format }
        "https://youtu.be/x" =
      Downloader.args (NewDownloader "music" "137+140" true) "https://youtu.be/x") ∧
    (∀ path, Except.ok "/usr/bin/yt-dlp" = (.ok path : Except GoError String) →
        DownloadEvent.run "yt-dlp"
            (Downloader.args (NewDownloader "music" "137+140" true) "https://youtu.be/x") ∈
          (Downloader.Download ⟨fun _ => .ok "/usr/bin/yt-dlp", fun _ _ => none⟩
            (NewDownloader "music" "137+140" true) "https://youtu.be/x").2) ∧
    (∀ name args, DownloadEvent.run name args ∈
          (Downloader.Download ⟨fun _ => .ok "/usr/bin/yt-dlp", fun _ _ => none⟩
            (NewDownloader "music" "137+140" true) "https://youtu.be/x").2 →
        name = "yt-dlp" ∧
        args = Downloader.args (NewDownloader "music" "137+140" true) "https://youtu.be/x") :=
  Download_args_audio_only ⟨fun _ => .ok "/usr/bin/yt-dlp", fun _ _ => none⟩
    (NewDownloader "music" "137+140" true) "https://youtu.be/x" rfl

/-- C6: when audio-only is not set, whatever the output directory, the format
string and the URL are, the argument list `Download` builds, and the only one
it starts `yt-dlp` with, is `-o`, the joined output template, `-f`, the
selector and the URL, where the selector is `bestvideo+bestaudio/best` when
the format string is `best` and the format string itself otherwise. -/
theorem Download_args_video (env : DownloadEnv) (d : Downloader) (url : String)
    (haudio : d.audioOnly = false) :
    d.args url =
        ["-o", filepathJoin d.outputDir "%(title)s.%(ext)s", "-f",
          if d.format = "best" then "bestvideo+bestaudio/best" else d.format, url] ∧
    (∀ path, env.LookPath "yt-dlp" = .ok path →
        DownloadEvent.run "yt-dlp" (d.args url) ∈ (d.Download env url).2) ∧
    (∀ name args, DownloadEvent.run name args ∈ (d.Download env url).2 →
        name = "yt-dlp" ∧ args = d.args url) := by
  refine ⟨?_, ?_, ?_⟩
  · by_cases hf : d.format = "best" <;> simp [Downloader.args, haudio, hf]
  · intro path hpath
    unfold Downloader.Download
    rw [hpath]
    cases hrun : env.Run "yt-dlp" (d.args url) <;> simp [hrun]
  · intro name args
    unfold Downloader.Download
    cases hlook : env.LookPath "yt-dlp" <;>
      cases hrun : env.Run "yt-dlp" (d.args url) <;> simp [hrun]

/-- An instance of C6: the format `22` is passed unchanged. -/
theorem Download_args_video_witness :
    Downloader.args (NewDownloader "/tmp/out" "22" false) "https://youtu.be/x" =
        ["-o", "/tmp/out/%(title)s.%(ext)s", "-f", "22", "https://youtu.be/x"] ∧
    (∀ path, Except.ok "/usr/bin/yt-dlp" = (.ok path : Except GoError String) →
        DownloadEvent.run "yt-dlp"
            (Downloader.args (NewDownloader "/tmp/out" "22" false) "https://youtu.be/x") ∈
          (Downloader.Download ⟨fun _ => .ok "/usr/bin/yt-dlp", fun _ _ => none⟩
            (NewDownloader "/tmp/out" "22" false) "https://youtu.be/x").2) ∧
    (∀ name args, DownloadEvent.run name args ∈
          (Downloader.Download ⟨fun _ => .ok "/usr/bin/yt-dlp", fun _ _ => none⟩
            (NewDownloader "/tmp/out" "22" false) "https://youtu.be/x").2 →
        name = "yt-dlp" ∧
        args = Downloader.args (NewDownloader "/tmp/out" "22" false) "https://youtu.be/x") :=
  Download_args_video ⟨fun _ => .ok "/usr/bin/yt-dlp", fun _ _ => none⟩
    (NewDownloader "/tmp/out" "22" false) "https://youtu.be/x" rfl

/-- C7: when `yt-dlp` is not found on the search path, `Download` returns the
error `yt-dlp not found in PATH. Please install it first: ...` and none of its
outside calls starts a subprocess, for every URL and every downloader. -/
theorem Download_ytdlp_not_found (env : DownloadEnv) (d : Downloader) (url : String)
    (err : GoError) (hlook : env.LookPath "yt-dlp" = .error err) :
    (d.Download env url).1 =
        some (.errorString ("yt-dlp not found in PATH. Please install it first:\n" ++
          "  brew install yt-dlp  (macOS)\n" ++ "  pip install yt-dlp   (pip)")) ∧
    (∀ e ∈ (d.Download env url).2, e.startsSubprocess = false) := by
  unfold Downloader.Download
  rw [hlook]
  simp [DownloadEvent.startsSubprocess]

/-- An instance of C7: the search path has no `yt-dlp`, and the subprocess, had
it been started, would have succeeded. -/
theorem Download_ytdlp_not_found_witness :
    (Downloader.Download
        ⟨fun _ => .error (.errorString "executable file not found in $PATH"), fun _ _ => none⟩
        (NewDownloader "." "best" false) "https://youtu.be/x").1 =
        some (.errorString ("yt-dlp not found in PATH. Please install it first:\n" ++
          "  brew install yt-dlp  (macOS)\n" ++ "  pip install yt-dlp   (pip)")) ∧
    (∀ e ∈ (Downloader.Download
        ⟨fun _ => .error (.errorString "executable file not found in $PATH"), fun _ _ => none⟩
        (NewDownloader "." "best" false) "https://youtu.be/x").2,
      e.startsSubprocess = false) :=
  Download_ytdlp_not_found
    ⟨fun _ => .error (.errorString "executable file not found in $PATH"), fun _ _ => none⟩
    (NewDownloader "." "best" false) "https://youtu.be/x"
    (.errorString "executable file not found in $PATH") rfl

/-- C8: `Download` returns no error exactly when `yt-dlp` is found on the
search path and the run of the subprocess it starts returns no error; and
when `yt-dlp` is found and the run fails with `err`, `Download` returns an
error that wraps `err` and whose message is `error downloading video: `
followed by the message of `err`. -/
theorem Download_error_iff (env : DownloadEnv) (d : Downloader) (url : String) :
    ((d.Download env url).1 = none ↔
      (∃ path, env.LookPath "yt-dlp" = .ok path) ∧ env.Run "yt-dlp" (d.args url) = none) ∧
    (∀ path err, env.LookPath "yt-dlp" = .ok path →
      env.Run "yt-dlp" (d.args url) = some err →
      (d.Download env url).1 =
        some (.wrapError ("error downloading video: " ++ err.Error) err)) := by
  unfold Downloader.Download
  cases hlook : env.LookPath "yt-dlp" <;>
    cases hrun : env.Run "yt-dlp" (d.args url) <;> simp [fmtErrorfW, hrun]

/-- An instance of C8: `yt-dlp` is found and exits with status 1. -/
theorem Download_error_iff_witness :
    (Downloader.Download
        ⟨fun _ => .ok "/usr/bin/yt-dlp", fun _ _ => some (.errorString "exit status 1")⟩
        (NewDownloader "." "best" false) "https://youtu.be/x").1 =
      some (.wrapError "error downloading video: exit status 1"
        (.errorString "exit status 1")) :=
  (Download_error_iff
    ⟨fun _ => .ok "/usr/bin/yt-dlp", fun _ _ => some (.errorString "exit status 1")⟩
    (NewDownloader "." "best" false) "https://youtu.be/x").2
    "/usr/bin/yt-dlp" (.errorString "exit status 1") rfl rfl

/-! ## Token cache: the claims -/

/-- C10: in a run of `getHTTPClient`, `saveToken` is called exactly when the
credentials file was read and parsed, loading the token from the token file
then failed, and the interactive exchange then returned a token; when the
cached token loads, the files are left as they were and the run makes no
interactive call and no call to `saveToken`; and a run that does not call
`saveToken` leaves the files as they were. -/
theorem getHTTPClient_saves_only_fresh_token (env : AuthEnv) (c : Client) (files : Files) :
    ((∃ e ∈ (c.getHTTPClient env (.start files)).2.events,
          e.entersSaveToken c.tokenPath = true) ↔
      ∃ credentials config token,
        files c.credentialsPath = .ok credentials ∧
        env.ConfigFromJSON credentials scopes = .ok config ∧
        (∀ cached, (c.tokenFromFile env (.start files)).1 ≠ .ok cached) ∧
        (Client.getTokenFromWeb env config (.start files)).1 = .ok token) ∧
    (∀ cached, (c.tokenFromFile env (.start files)).1 = .ok cached →
      (c.getHTTPClient env (.start files)).2.files = files ∧
      ∀ e ∈ (c.getHTTPClient env (.start files)).2.events,
        e.isInteractive = false ∧ e.entersSaveToken c.tokenPath = false) ∧
    ((∀ e ∈ (c.getHTTPClient env (.start files)).2.events,
          e.entersSaveToken c.tokenPath = false) →
      (c.getHTTPClient env (.start files)).2.files = files) := by
  unfold Client.getHTTPClient Client.tokenFromFile Client.getTokenFromWeb Client.saveToken
  simp only [AuthState.start, AuthState.log, AuthState.setFile]
  rcases hcred : files c.credentialsPath with err0 | credentials
  · rcases htok : files c.tokenPath with err1 | file
    · simp [hcred, htok, AuthEvent.entersSaveToken, AuthEvent.isInteractive]
    · rcases hdec : env.Decode file with err2 | cached <;>
        simp [hcred, htok, hdec, AuthEvent.entersSaveToken, AuthEvent.isInteractive]
  · rcases hcfg : env.ConfigFromJSON credentials scopes with err1 | config
    · rcases htok : files c.tokenPath with err2 | file
      · simp [hcred, hcfg, htok, AuthEvent.entersSaveToken, AuthEvent.isInteractive]
      · rcases hdec : env.Decode file with err3 | cached <;>
          simp [hcred, hcfg, htok, hdec, AuthEvent.entersSaveToken, AuthEvent.isInteractive]
    · rcases htok : files c.tokenPath with err2 | file
      · rcases hscan : env.Scan with e1 | code
        · simp [hcred, hcfg, htok, hscan, AuthEvent.entersSaveToken, AuthEvent.isInteractive]
        · rcases hex : env.Exchange config code with e2 | token
          · simp [hcred, hcfg, htok, hscan, hex, AuthEvent.entersSaveToken,
              AuthEvent.isInteractive]
          · rcases hmk : env.MkdirAll (filepathDir c.tokenPath) with _ | e3
            · rcases hop : env.OpenFile c.tokenPath with _ | e4
              · rcases henc : env.Encode token with e5 | data <;>
                  simp [hcred, hcfg, htok, hscan, hex, hmk, hop, henc,
                    AuthEvent.entersSaveToken, AuthEvent.isInteractive]
              · simp [hcred, hcfg, htok, hscan, hex, hmk, hop, AuthEvent.entersSaveToken,
                  AuthEvent.isInteractive]
            · simp [hcred, hcfg, htok, hscan, hex, hmk, AuthEvent.entersSaveToken,
                AuthEvent.isInteractive]
      · rcases hdec : env.Decode file with err3 | cached
        · rcases hscan : env.Scan with e1 | code
          · simp [hcred, hcfg, htok, hdec, hscan, AuthEvent.entersSaveToken, AuthEvent.isInteractive]
          · rcases hex : env.Exchange config code with e2 | token
            · simp [hcred, hcfg, htok, hdec, hscan, hex, AuthEvent.entersSaveToken,
                AuthEvent.isInteractive]
            · rcases hmk : env.MkdirAll (filepathDir c.tokenPath) with _ | e3
              · rcases hop : env.OpenFile c.tokenPath with _ | e4
                · rcases henc : env.Encode token with e5 | data <;>
                    simp [hcred, hcfg, htok, hdec, hscan, hex, hmk, hop, henc,
                      AuthEvent.entersSaveToken, AuthEvent.isInteractive]
                · simp [hcred, hcfg, htok, hdec, hscan, hex, hmk, hop, AuthEvent.entersSaveToken,
                    AuthEvent.isInteractive]
              · simp [hcred, hcfg, htok, hdec, hscan, hex, hmk, AuthEvent.entersSaveToken,
                  AuthEvent.isInteractive]
        · simp [hcred, hcfg, htok, hdec, AuthEvent.entersSaveToken, AuthEvent.isInteractive]

/-- Two instances of C10: without a token file the run calls `saveToken`;
with a token file that loads, the files are left as they were and the run
makes no interactive call. -/
theorem getHTTPClient_saves_only_fresh_token_witness :
    (∃ e ∈ (sampleClient.getHTTPClient sampleAuthEnv (.start (sampleFiles false))).2.events,
        e.entersSaveToken sampleClient.tokenPath = true) ∧
    ((sampleClient.getHTTPClient sampleAuthEnv (.start (sampleFiles true))).2.files =
        sampleFiles true ∧
      ∀ e ∈ (sampleClient.getHTTPClient sampleAuthEnv (.start (sampleFiles true))).2.events,
        e.isInteractive = false ∧ e.entersSaveToken sampleClient.tokenPath = false) :=
  ⟨(getHTTPClient_saves_only_fresh_token sampleAuthEnv sampleClient (sampleFiles false)).1.mpr
      ⟨"credentials", sampleConfig, sampleToken, rfl, rfl, fun _ h => (by cases h), rfl⟩,
    (getHTTPClient_saves_only_fresh_token sampleAuthEnv sampleClient (sampleFiles true)).2.1
      sampleToken rfl⟩

/-- C11: when the credentials file cannot be read, `getHTTPClient` returns an
error whose message names the credentials path and which wraps the read
error; reading the credentials file is the only outside call of the run, so
the token file is not opened, nothing interactive happens, and no file is
created or changed. -/
theorem getHTTPClient_credentials_unreadable (env : AuthEnv) (c : Client) (files : Files)
    (err : GoError) (hcred : files c.credentialsPath = .error err) :
    (c.getHTTPClient env (.start files)).1 =
        .error (.wrapError ("unable to read credentials file " ++ c.credentialsPath ++ ": " ++
          err.Error ++ "\nSee README.md for setup instructions") err) ∧
    (c.getHTTPClient env (.start files)).2.events = [.readFile c.credentialsPath] ∧
    (∀ e ∈ (c.getHTTPClient env (.start files)).2.events,
        e.opensForRead c.tokenPath = false ∧ e.isInteractive = false ∧
        e.changesFiles = false) ∧
    (c.getHTTPClient env (.start files)).2.files = files := by
  unfold Client.getHTTPClient
  simp [AuthState.start, AuthState.log, hcred, AuthEvent.opensForRead,
    AuthEvent.isInteractive, AuthEvent.changesFiles]

/-- An instance of C11: no file exists at all. -/
theorem getHTTPClient_credentials_unreadable_witness :
    (sampleClient.getHTTPClient sampleAuthEnv
        (.start fun _ => .error (.errorString "no such file or directory"))).1 =
      .error (.wrapError ("unable to read credentials file " ++
          "/home/u/.credentials/google_credentials.json" ++ ": " ++
          "no such file or directory" ++ "\nSee README.md for setup instructions")
        (.errorString "no such file or directory")) ∧
    (sampleClient.getHTTPClient sampleAuthEnv
        (.start fun _ => .error (.errorString "no such file or directory"))).2.events =
      [.readFile "/home/u/.credentials/google_credentials.json"] :=
  ⟨(getHTTPClient_credentials_unreadable sampleAuthEnv sampleClient
      (fun _ => .error (.errorString "no such file or directory"))
      (.errorString "no such file or directory") rfl).1,
    (getHTTPClient_credentials_unreadable sampleAuthEnv sampleClient
      (fun _ => .error (.errorString "no such file or directory"))
      (.errorString "no such file or directory") rfl).2.1⟩

/-- C12: when the credentials were read and parsed, no cached token loads and
the interactive exchange fails with `err` (the code could not be read, or the
exchange was rejected), `getHTTPClient` returns that error and no client,
the files are left as they were, and the run neither calls `saveToken` nor
creates or changes a file. -/
theorem getHTTPClient_exchange_fails (env : AuthEnv) (c : Client) (files : Files)
    (credentials : String) (config : Config) (err : GoError)
    (hcred : files c.credentialsPath = .ok credentials)
    (hcfg : env.ConfigFromJSON credentials scopes = .ok config)
    (hload : ∀ cached, (c.tokenFromFile env (.start files)).1 ≠ .ok cached)
    (hweb : (Client.getTokenFromWeb env config (.start files)).1 = .error err) :
    (c.getHTTPClient env (.start files)).1 = .error err ∧
    ((∃ e, env.Scan = .error e ∧ err = fmtErrorfW "unable to read authorization code: " e) ∨
      (∃ code e, env.Scan = .ok code ∧ env.Exchange config code = .error e ∧
        err = fmtErrorfW "unable to retrieve token from web: " e)) ∧
    (c.getHTTPClient env (.start files)).2.files = files ∧
    (∀ e ∈ (c.getHTTPClient env (.start files)).2.events,
        e.changesFiles = false ∧ e.entersSaveToken c.tokenPath = false) := by
  unfold Client.getHTTPClient Client.tokenFromFile Client.getTokenFromWeb
  unfold Client.tokenFromFile at hload
  unfold Client.getTokenFromWeb at hweb
  simp only [AuthState.start, AuthState.log] at hload hweb ⊢
  rcases htok : files c.tokenPath with err2 | file
  · rcases hscan : env.Scan with e1 | code
    · simp [hscan] at hweb
      simp [hcred, hcfg, htok, hscan, hweb, AuthEvent.entersSaveToken, AuthEvent.changesFiles]
    · rcases hex : env.Exchange config code with e2 | token
      · simp [hscan, hex] at hweb
        simp [hcred, hcfg, htok, hscan, hex, hweb, AuthEvent.entersSaveToken,
          AuthEvent.changesFiles]
      · simp [hscan, hex] at hweb
  · rcases hdec : env.Decode file with err3 | cached
    · rcases hscan : env.Scan with e1 | code
      · simp [hscan] at hweb
        simp [hcred, hcfg, htok, hdec, hscan, hweb, AuthEvent.entersSaveToken,
          AuthEvent.changesFiles]
      · rcases hex : env.Exchange config code with e2 | token
        · simp [hscan, hex] at hweb
          simp [hcred, hcfg, htok, hdec, hscan, hex, hweb, AuthEvent.entersSaveToken,
            AuthEvent.changesFiles]
        · simp [hscan, hex] at hweb
    · simp [htok, hdec] at hload

/-- An instance of C12: there is no token file and the token endpoint rejects
the authorization code. -/
theorem getHTTPClient_exchange_fails_witness :
    (sampleClient.getHTTPClient rejectingAuthEnv (.start (sampleFiles false))).1 =
      .error (.wrapError "unable to retrieve token from web: oauth2: invalid_grant"
        (.errorString "oauth2: invalid_grant")) ∧
    (sampleClient.getHTTPClient rejectingAuthEnv (.start (sampleFiles false))).2.files =
      sampleFiles false :=
  ⟨(getHTTPClient_exchange_fails rejectingAuthEnv sampleClient (sampleFiles false)
      "credentials" sampleConfig
      (.wrapError "unable to retrieve token from web: oauth2: invalid_grant"
        (.errorString "oauth2: invalid_grant"))
      rfl rfl (fun _ h => (by cases h)) rfl).1,
    (getHTTPClient_exchange_fails rejectingAuthEnv sampleClient (sampleFiles false)
      "credentials" sampleConfig
      (.wrapError "unable to retrieve token from web: oauth2: invalid_grant"
        (.errorString "oauth2: invalid_grant"))
      rfl rfl (fun _ h => (by cases h)) rfl).2.2.1⟩

/-- C13, refuted at a concrete input: the credentials directory cannot be
created, so `saveToken` returns an error for the freshly minted token, and
`getHTTPClient` still returns the client and no error. -/
theorem getHTTPClient_saveToken_failure_not_returned :
    (sampleClient.saveToken readOnlyAuthEnv sampleToken (.start (sampleFiles false))).1 =
      some (.wrapError "failed to create credentials directory: mkdir: permission denied"
        (.errorString "mkdir: permission denied")) ∧
    (sampleClient.getHTTPClient readOnlyAuthEnv (.start (sampleFiles false))).1 =
      .ok { config := sampleConfig, token := sampleToken } ∧
    ¬ ∃ err, (sampleClient.getHTTPClient readOnlyAuthEnv (.start (sampleFiles false))).1 =
      .error err :=
  ⟨rfl, rfl, fun ⟨_, h⟩ => (by cases h)⟩

/-- C13 as amended: a failure to read the credentials file, to parse it, or to
obtain a token (no cached token loads and the interactive exchange fails) is
returned by `getHTTPClient` as an error; a failure of `saveToken` for a
freshly minted token is not: the run logs the warning `Unable to save token`
with that error and `getHTTPClient` returns the client bound to the minted
token. -/
theorem getHTTPClient_failures (env : AuthEnv) (c : Client) (files : Files) :
    (∀ err, files c.credentialsPath = .error err →
      ∃ e, (c.getHTTPClient env (.start files)).1 = .error e ∧ e.Unwrap = some err) ∧
    (∀ credentials err, files c.credentialsPath = .ok credentials →
      env.ConfigFromJSON credentials scopes = .error err →
      (c.getHTTPClient env (.start files)).1 =
        .error (.wrapError ("unable to parse credentials: " ++ err.Error) err)) ∧
    (∀ credentials config err, files c.credentialsPath = .ok credentials →
      env.ConfigFromJSON credentials scopes = .ok config →
      (∀ cached, (c.tokenFromFile env (.start files)).1 ≠ .ok cached) →
      (Client.getTokenFromWeb env config (.start files)).1 = .error err →
      (c.getHTTPClient env (.start files)).1 = .error err) ∧
    (∀ credentials config token err, files c.credentialsPath = .ok credentials →
      env.ConfigFromJSON credentials scopes = .ok config →
      (∀ cached, (c.tokenFromFile env (.start files)).1 ≠ .ok cached) →
      (Client.getTokenFromWeb env config (.start files)).1 = .ok token →
      (c.saveToken env token (.start files)).1 = some err →
      (c.getHTTPClient env (.start files)).1 = .ok { config := config, token := token } ∧
      AuthEvent.slogWarn "Unable to save token" err ∈
        (c.getHTTPClient env (.start files)).2.events) := by
  refine ⟨?_, ?_, ?_, ?_⟩
  · intro err hcred
    unfold Client.getHTTPClient
    simp [AuthState.start, AuthState.log, hcred, GoError.Unwrap]
  · intro credentials err hcred hcfg
    unfold Client.getHTTPClient
    simp [AuthState.start, AuthState.log, hcred, hcfg, fmtErrorfW]
  · intro credentials config err hcred hcfg hload hweb
    unfold Client.getHTTPClient Client.tokenFromFile Client.getTokenFromWeb
    unfold Client.tokenFromFile at hload
    unfold Client.getTokenFromWeb at hweb
    simp only [AuthState.start, AuthState.log] at hload hweb ⊢
    rcases htok : files c.tokenPath with err2 | file
    · rcases hscan : env.Scan with e1 | code
      · simp [hscan] at hweb
        simp [hcred, hcfg, htok, hscan, hweb]
      · rcases hex : env.Exchange config code with e2 | token
        · simp [hscan, hex] at hweb
          simp [hcred, hcfg, htok, hscan, hex, hweb]
        · simp [hscan, hex] at hweb
    · rcases hdec : env.Decode file with err3 | cached
      · rcases hscan : env.Scan with e1 | code
        · simp [hscan] at hweb
          simp [hcred, hcfg, htok, hdec, hscan, hweb]
        · rcases hex : env.Exchange config code with e2 | token
          · simp [hscan, hex] at hweb
            simp [hcred, hcfg, htok, hdec, hscan, hex, hweb]
          · simp [hscan, hex] at hweb
      · simp [htok, hdec] at hload
  · intro credentials config token err hcred hcfg hload hweb hsave
    unfold Client.getHTTPClient Client.tokenFromFile Client.getTokenFromWeb Client.saveToken
    unfold Client.tokenFromFile at hload
    unfold Client.getTokenFromWeb at hweb
    unfold Client.saveToken at hsave
    simp only [AuthState.start, AuthState.log, AuthState.setFile] at hload hweb hsave ⊢
    rcases htok : files c.tokenPath with err2 | file
    · rcases hscan : env.Scan with e1 | code
      · simp [hscan] at hweb
      · rcases hex : env.Exchange config code with e2 | token'
        · simp [hscan, hex] at hweb
        · simp [hscan, hex] at hweb
          subst hweb
          rcases hmk : env.MkdirAll (filepathDir c.tokenPath) with _ | e3
          · rcases hop : env.OpenFile c.tokenPath with _ | e4
            · rcases henc : env.Encode token' with e5 | data
              · simp [hmk, hop, henc] at hsave
                simp [hcred, hcfg, htok, hscan, hex, hmk, hop, henc, hsave]
              · simp [hmk, hop, henc] at hsave
            · simp [hmk, hop] at hsave
              simp [hcred, hcfg, htok, hscan, hex, hmk, hop, hsave]
          · simp [hmk] at hsave
            simp [hcred, hcfg, htok, hscan, hex, hmk, hsave]
    · rcases hdec : env.Decode file with err3 | cached
      · rcases hscan : env.Scan with e1 | code
        · simp [hscan] at hweb
        · rcases hex : env.Exchange config code with e2 | token'
          · simp [hscan, hex] at hweb
          · simp [hscan, hex] at hweb
            subst hweb
            rcases hmk : env.MkdirAll (filepathDir c.tokenPath) with _ | e3
            · rcases hop : env.OpenFile c.tokenPath with _ | e4
              · rcases henc : env.Encode token' with e5 | data
                · simp [hmk, hop, henc] at hsave
                  simp [hcred, hcfg, htok, hdec, hscan, hex, hmk, hop, henc, hsave]
                · simp [hmk, hop, henc] at hsave
              · simp [hmk, hop] at hsave
                simp [hcred, hcfg, htok, hdec, hscan, hex, hmk, hop, hsave]
            · simp [hmk] at hsave
              simp [hcred, hcfg, htok, hdec, hscan, hex, hmk, hsave]
      · simp [htok, hdec] at hload

/-- An instance of C13 as amended: the credentials directory cannot be
created, the warning is logged and the client is returned. -/
theorem getHTTPClient_failures_witness :
    (sampleClient.getHTTPClient readOnlyAuthEnv (.start (sampleFiles false))).1 =
        .ok { config := sampleConfig, token := sampleToken } ∧
    AuthEvent.slogWarn "Unable to save token"
        (.wrapError "failed to create credentials directory: mkdir: permission denied"
          (.errorString "mkdir: permission denied")) ∈
      (sampleClient.getHTTPClient readOnlyAuthEnv (.start (sampleFiles false))).2.events :=
  (getHTTPClient_failures readOnlyAuthEnv sampleClient (sampleFiles false)).2.2.2
    "credentials" sampleConfig sampleToken
    (.wrapError "failed to create credentials directory: mkdir: permission denied"
      (.errorString "mkdir: permission denied"))
    rfl rfl (fun _ h => (by cases h)) rfl rfl

/-! ## Playlists and videos: the claims -/

/-- C14: a call of `List`, against any API, makes exactly one request, which
carries the parts `snippet` and `contentDetails`, `mine = true`, `maxResults`
equal to the limit and no page token; when the API answers with a page,
`List` returns the items of that page in their order and no error, whatever
continuation token the page carries, and the API is left in the state that
single request put it in; when the API fails, `List` returns the wrapped
error and no items. -/
theorem List_single_request {σ : Type} (Do : PlaylistsApi σ) (s : σ) (limit : Int) :
    ((PlaylistService.List Do s limit).exchanges.map (·.1) =
      [⟨["snippet", "contentDetails"], some true, some limit, none⟩]) ∧
    (∀ response s',
      Do s ⟨["snippet", "contentDetails"], some true, some limit, none⟩ = (.ok response, s') →
      (PlaylistService.List Do s limit).returned = (response.Items, none) ∧
      (PlaylistService.List Do s limit).server = s') ∧
    (∀ err s',
      Do s ⟨["snippet", "contentDetails"], some true, some limit, none⟩ = (.error err, s') →
      (PlaylistService.List Do s limit).returned =
        ([], some (.wrapError ("error fetching playlists: " ++ err.Error) err))) := by
  unfold PlaylistService.List
  rcases hdo : Do s ⟨["snippet", "contentDetails"], some true, some limit, none⟩ with ⟨r, s1⟩
  cases r <;> simp [hdo, fmtErrorfW]

/-- An instance of C14: the API counts the requests it receives and answers
with two playlists and the continuation token `NEXT`. -/
theorem List_single_request_witness :
    (PlaylistService.List
        (fun (n : Nat) _ =>
          (.ok ⟨[⟨"PL1", none, none⟩, ⟨"PL2", none, none⟩], "NEXT"⟩, n + 1)) 0 2).returned =
      ([⟨"PL1", none, none⟩, ⟨"PL2", none, none⟩], none) ∧
    (PlaylistService.List
        (fun (n : Nat) _ =>
          (.ok ⟨[⟨"PL1", none, none⟩, ⟨"PL2", none, none⟩], "NEXT"⟩, n + 1)) 0 2).server = 1 :=
  (List_single_request
    (fun (n : Nat) _ => (.ok ⟨[⟨"PL1", none, none⟩, ⟨"PL2", none, none⟩], "NEXT"⟩, n + 1))
    0 2).2.1 ⟨[⟨"PL1", none, none⟩, ⟨"PL2", none, none⟩], "NEXT"⟩ 1 rfl

/-- C17: `Get` returns an error exactly when the API call fails or the
response has no items; for an empty response the error is `video not found: `
followed by the requested id; and when the response has items, `Get` returns
the first of them and no error.  The request carries the parts `snippet`,
`contentDetails` and `statistics` and the requested id. -/
theorem Get_error_iff (Do : VideosListCall → Except GoError VideoListResponse)
    (videoID : String) :
    (((VideoService.Get Do videoID).2 ≠ none) ↔
      ((∃ err, Do ⟨["snippet", "contentDetails", "statistics"], videoID⟩ = .error err) ∨
        Do ⟨["snippet", "contentDetails", "statistics"], videoID⟩ = .ok ⟨[]⟩)) ∧
    (Do ⟨["snippet", "contentDetails", "statistics"], videoID⟩ = .ok ⟨[]⟩ →
      VideoService.Get Do videoID =
        (none, some (.errorString ("video not found: " ++ videoID)))) ∧
    (∀ err, Do ⟨["snippet", "contentDetails", "statistics"], videoID⟩ = .error err →
      VideoService.Get Do videoID =
        (none, some (.wrapError ("error fetching video: " ++ err.Error) err))) ∧
    (∀ video rest, Do ⟨["snippet", "contentDetails", "statistics"], videoID⟩ =
        .ok ⟨video :: rest⟩ →
      VideoService.Get Do videoID = (some video, none)) := by
  unfold VideoService.Get
  rcases hdo : Do ⟨["snippet", "contentDetails", "statistics"], videoID⟩ with err | response
  · simp [hdo, fmtErrorfW]
  · rcases response with ⟨items⟩
    cases items <;> simp [hdo]

/-- An instance of C17: the API knows no video with the requested id. -/
theorem Get_error_iff_witness :
    VideoService.Get (fun _ => .ok ⟨[]⟩) "dQw4w9WgXcQ" =
      (none, some (.errorString "video not found: dQw4w9WgXcQ")) :=
  (Get_error_iff (fun _ => .ok ⟨[]⟩) "dQw4w9WgXcQ").2.1 rfl

/-- The loop of `PrintPlaylistItems` over items that all have both parts: it
does not panic, it makes four writes an item, and the writes for the item at
position `i` are the entry numbered `idx + i + 1`. -/
theorem PrintPlaylistItemsLoop_entries (items : List PlaylistItem) :
    ∀ (idx : Nat), (∀ it ∈ items, it.Snippet.isSome = true ∧ it.ContentDetails.isSome = true) →
      (PrintPlaylistItemsLoop idx items).2 = false ∧
      (PrintPlaylistItemsLoop idx items).1.length = 4 * items.length ∧
      ∀ (i : Nat) (it : PlaylistItem) (sn : PlaylistItemSnippet)
        (cd : PlaylistItemContentDetails),
        items[i]? = some it → it.Snippet = some sn → it.ContentDetails = some cd →
        ((PrintPlaylistItemsLoop idx items).1.drop (4 * i)).take 4 =
          playlistItemEntry (idx + i + 1) sn.Title cd.VideoId sn.ChannelTitle := by
  induction items with
  | nil => intro idx _; simp [PrintPlaylistItemsLoop]
  | cons video rest ih =>
    intro idx hparts
    obtain ⟨hsn, hcd⟩ := hparts video (by simp)
    obtain ⟨snippet, hsnippet⟩ := Option.isSome_iff_exists.mp hsn
    obtain ⟨details, hdetails⟩ := Option.isSome_iff_exists.mp hcd
    obtain ⟨ih1, ih2, ih3⟩ := ih (idx + 1) (fun it hit => hparts it (by simp [hit]))
    simp only [PrintPlaylistItemsLoop, hsnippet, hdetails]
    refine ⟨ih1, ?_, ?_⟩
    · simp only [List.length_cons, ih2]; omega
    · intro i it sn cd hi hsn' hcd'
      cases i with
      | zero =>
        simp only [List.getElem?_cons_zero, Option.some.injEq] at hi
        subst hi
        rw [hsnippet] at hsn'
        rw [hdetails] at hcd'
        simp only [Option.some.injEq] at hsn' hcd'
        subst hsn' hcd'
        simp [playlistItemEntry]
      | succ j =>
        have hj := ih3 j it sn cd (by simpa using hi) hsn' hcd'
        have h4 : 4 * (j + 1) = 4 * j + 1 + 1 + 1 + 1 := by omega
        have hidx : idx + (j + 1) + 1 = idx + 1 + j + 1 := by omega
        rw [h4, hidx]
        simpa using hj

/-- C15: for a video with its three parts, `PrintVideo` does not panic (the
slice at byte 500 is taken only from a description longer than 500 bytes), and
the description text in its last write is the description itself when that
is at most 500 bytes long, and otherwise its first 500 bytes followed by the
three bytes of `...`; the text is at most 503 bytes long, and its first
min(len, 500) bytes are a prefix of the description. -/
theorem PrintVideo_description (video : Video) (snippet : VideoSnippet)
    (details : VideoContentDetails) (stats : VideoStatistics)
    (hsnippet : video.Snippet = some snippet) (hdetails : video.ContentDetails = some details)
    (hstats : video.Statistics = some stats) :
    ∃ shown, printedDescription snippet.Description = some shown ∧
      (PrintVideo video).panicked = false ∧
      (PrintVideo video).stdout.getLast? =
        some (.bytes (utf8 "\n   Description:\n   " ++ shown ++ utf8 "\n")) ∧
      (snippet.Description.length ≤ 500 → shown = snippet.Description) ∧
      (500 < snippet.Description.length →
        shown = snippet.Description.take 500 ++ utf8 "...") ∧
      shown.length ≤ 503 ∧
      shown.take (min snippet.Description.length 500) <+: snippet.Description := by
  have hdots : utf8 "..." = [46, 46, 46] := by decide
  by_cases hlen : 500 < snippet.Description.length
  · refine ⟨snippet.Description.take 500 ++ [46, 46, 46], ?_, ?_, ?_, ?_, ?_, ?_, ?_⟩
    · simp [printedDescription, goSliceTo, hlen, Nat.le_of_lt hlen, hdots]
    · simp [PrintVideo, hsnippet, hdetails, hstats, printedDescription, goSliceTo, hlen,
        Nat.le_of_lt hlen]
    · simp [PrintVideo, hsnippet, hdetails, hstats, printedDescription, goSliceTo, hlen,
        Nat.le_of_lt hlen, hdots, List.getLast?_append]
    · intro h; omega
    · intro _; rw [hdots]
    · simp only [List.length_append, List.length_take, List.length_cons, List.length_nil]
      omega
    · have hmin : min snippet.Description.length 500 = 500 := by omega
      rw [hmin, List.take_append_of_le_length (by simp; omega), List.take_take]
      simpa using List.take_prefix 500 snippet.Description
  · refine ⟨snippet.Description, ?_, ?_, ?_, ?_, ?_, ?_, ?_⟩
    · simp [printedDescription, hlen]
    · simp [PrintVideo, hsnippet, hdetails, hstats, printedDescription, hlen]
    · simp [PrintVideo, hsnippet, hdetails, hstats, printedDescription, hlen,
        List.getLast?_append]
    · intro _; rfl
    · intro h; exact absurd h hlen
    · omega
    · exact List.take_prefix _ _

/-- An instance of C15: a description of 600 bytes. -/
theorem PrintVideo_description_witness :
    ∃ shown, printedDescription (List.replicate 600 97) = some shown ∧
      (PrintVideo (sampleVideo (List.replicate 600 97))).panicked = false ∧
      (PrintVideo (sampleVideo (List.replicate 600 97))).stdout.getLast? =
        some (.bytes (utf8 "\n   Description:\n   " ++ shown ++ utf8 "\n")) ∧
      ((List.replicate 600 (97 : UInt8)).length ≤ 500 → shown = List.replicate 600 97) ∧
      (500 < (List.replicate 600 (97 : UInt8)).length →
        shown = (List.replicate 600 97).take 500 ++ utf8 "...") ∧
      shown.length ≤ 503 ∧
      shown.take (min (List.replicate 600 (97 : UInt8)).length 500) <+: List.replicate 600 97 :=
  PrintVideo_description (sampleVideo (List.replicate 600 97))
    { Title := "title", ChannelTitle := "channel", PublishedAt := "2009-10-25T06:57:33Z",
      Description := List.replicate 600 97 }
    { Duration := "PT3M33S" } { ViewCount := 1000, LikeCount := 10, CommentCount := 0 }
    rfl rfl rfl

/-- C16: for a list of playlist items that all have their snippet and their
content details, `PrintPlaylistItems` does not panic; for the empty list it
writes to standard output only the line `No videos found in this playlist.`;
for a list of n > 0 items it makes 4 n writes, and the four writes for the
item at position `i` (from 0) are the lines `i+1. title`, `   Video ID: id`,
`   Channel: channel` and `   Link: https://www.youtube.com/watch?v=id`
followed by a blank line. -/
theorem PrintPlaylistItems_entries (items : List PlaylistItem)
    (hparts : ∀ it ∈ items, it.Snippet.isSome = true ∧ it.ContentDetails.isSome = true) :
    (PrintPlaylistItems items).panicked = false ∧
    (items = [] →
      (PrintPlaylistItems items).stdout = [.text "No videos found in this playlist.\n"]) ∧
    (items ≠ [] →
      (PrintPlaylistItems items).stdout.length = 4 * items.length ∧
      ∀ (i : Nat) (it : PlaylistItem) (sn : PlaylistItemSnippet)
        (cd : PlaylistItemContentDetails),
        items[i]? = some it → it.Snippet = some sn → it.ContentDetails = some cd →
        ((PrintPlaylistItems items).stdout.drop (4 * i)).take 4 =
          [.text (toString (i + 1) ++ ". " ++ sn.Title ++ "\n"),
            .text ("   Video ID: " ++ cd.VideoId ++ "\n"),
            .text ("   Channel: " ++ sn.ChannelTitle ++ "\n"),
            .text ("   Link: https://www.youtube.com/watch?v=" ++ cd.VideoId ++ "\n\n")]) := by
  obtain ⟨h1, h2, h3⟩ := PrintPlaylistItemsLoop_entries items 0 hparts
  cases items with
  | nil => simp [PrintPlaylistItems]
  | cons video rest =>
    refine ⟨?_, ?_, ?_⟩
    · simpa [PrintPlaylistItems] using h1
    · intro h; cases h
    · intro _
      refine ⟨?_, ?_⟩
      · simpa [PrintPlaylistItems] using h2
      · intro i it sn cd hi hsn hcd
        have h := h3 i it sn cd hi hsn hcd
        simp only [Nat.zero_add] at h
        simpa [PrintPlaylistItems, playlistItemEntry] using h

/-- An instance of C16: two items. -/
theorem PrintPlaylistItems_entries_witness :
    (PrintPlaylistItems [sampleItem "i1" "first" "va", sampleItem "i2" "second" "vb"]).stdout =
      [.text "1. first\n", .text "   Video ID: va\n", .text "   Channel: channel\n",
        .text "   Link: https://www.youtube.com/watch?v=va\n\n",
        .text "2. second\n", .text "   Video ID: vb\n", .text "   Channel: channel\n",
        .text "   Link: https://www.youtube.com/watch?v=vb\n\n"] ∧
    (PrintPlaylistItems [sampleItem "i1" "first" "va", sampleItem "i2" "second" "vb"]).panicked =
      false :=
  ⟨by decide,
    (PrintPlaylistItems_entries [sampleItem "i1" "first" "va", sampleItem "i2" "second" "vb"]
      (by decide)).1⟩

/-! ## The two download commands: the claims -/

/-- C18: for every output directory, format string, audio-only value and URL,
the argument list built by the `runDownload` of the package `main` is the one
built by `Downloader.Download`; the two also make the same outside calls and
return the same error. -/
theorem runDownload_same_arguments (env : DownloadEnv) (outputDir format : String)
    (audioOnly : Bool) (url : String) :
    Legacy.runDownloadArgs outputDir format audioOnly url =
        (NewDownloader outputDir format audioOnly).args url ∧
    startedWith (Legacy.runDownload env outputDir format audioOnly url).2 =
        startedWith ((NewDownloader outputDir format audioOnly).Download env url).2 ∧
    Legacy.runDownload env outputDir format audioOnly url =
        (NewDownloader outputDir format audioOnly).Download env url := by
  have hargs : Legacy.runDownloadArgs outputDir format audioOnly url =
      (NewDownloader outputDir format audioOnly).args url := rfl
  have hrun : Legacy.runDownload env outputDir format audioOnly url =
      (NewDownloader outputDir format audioOnly).Download env url := by
    unfold Legacy.runDownload Downloader.Download
    rw [hargs]
  exact ⟨hargs, by rw [hrun], hrun⟩

/-- An instance of C18: an audio-only download into `music`. -/
theorem runDownload_same_arguments_witness :
    Legacy.runDownloadArgs "music" "22" true "https://youtu.be/x" =
        ["-o", "music/%(title)s.%(ext)s", "-f", "bestaudio/best", "-x",
          "--audio-format", "mp3", "--audio-quality", "192K", "https://youtu.be/x"] ∧
    Legacy.runDownloadArgs "music" "22" true "https://youtu.be/x" =
        (NewDownloader "music" "22" true).args "https://youtu.be/x" :=
  ⟨by decide,
    (runDownload_same_arguments ⟨fun _ => .ok "/usr/bin/yt-dlp", fun _ _ => none⟩
      "music" "22" true "https://youtu.be/x").1⟩

/-- C19: with the default flag values of the `download` command (output `.`,
format `best`, audio-only unset), joining the output directory with the
file-name template gives the bare template, and for every URL the argument
list the command builds, and starts `yt-dlp` with when it is found, is `-o`,
the bare template, `-f`, `bestvideo+bestaudio/best` and the URL. -/
theorem download_default_arguments (env : DownloadEnv) (url : String) :
    Cli.defaultDownloadFlags = ⟨".", "best", false⟩ ∧
    filepathJoin Cli.defaultDownloadFlags.outputDir "%(title)s.%(ext)s" = "%(title)s.%(ext)s" ∧
    (NewDownloader Cli.defaultDownloadFlags.outputDir Cli.defaultDownloadFlags.format
        Cli.defaultDownloadFlags.audioOnly).args url =
      ["-o", "%(title)s.%(ext)s", "-f", "bestvideo+bestaudio/best", url] ∧
    (∀ path, env.LookPath "yt-dlp" = .ok path →
      startedWith (Cli.downloadRunE env Cli.defaultDownloadFlags url).2 =
        [["-o", "%(title)s.%(ext)s", "-f", "bestvideo+bestaudio/best", url]]) ∧
    (∀ name args,
      DownloadEvent.run name args ∈ (Cli.downloadRunE env Cli.defaultDownloadFlags url).2 →
      name = "yt-dlp" ∧
      args = ["-o", "%(title)s.%(ext)s", "-f", "bestvideo+bestaudio/best", url]) := by
  have hjoin : filepathJoin "." "%(title)s.%(ext)s" = "%(title)s.%(ext)s" := by decide
  have hargs : (NewDownloader "." "best" false).args url =
      ["-o", "%(title)s.%(ext)s", "-f", "bestvideo+bestaudio/best", url] := by
    simp [Downloader.args, NewDownloader, hjoin]
  refine ⟨rfl, hjoin, hargs, ?_, ?_⟩
  · intro path hpath
    simp only [Cli.downloadRunE, Cli.runDownload, Cli.defaultDownloadFlags,
      Downloader.Download, hpath, hargs]
    cases hrun : env.Run "yt-dlp"
        ["-o", "%(title)s.%(ext)s", "-f", "bestvideo+bestaudio/best", url] <;>
      simp [hrun, startedWith]
  · intro name args
    simp only [Cli.downloadRunE, Cli.runDownload, Cli.defaultDownloadFlags,
      Downloader.Download, hargs]
    cases hlook : env.LookPath "yt-dlp" <;>
      cases hrun : env.Run "yt-dlp"
        ["-o", "%(title)s.%(ext)s", "-f", "bestvideo+bestaudio/best", url] <;>
      simp [hrun]

/-- An instance of C19: `yt-dlp` is found and succeeds. -/
theorem download_default_arguments_witness :
    startedWith (Cli.downloadRunE ⟨fun _ => .ok "/usr/bin/yt-dlp", fun _ _ => none⟩
        Cli.defaultDownloadFlags "https://youtu.be/x").2 =
      [["-o", "%(title)s.%(ext)s", "-f", "bestvideo+bestaudio/best", "https://youtu.be/x"]] :=
  (download_default_arguments ⟨fun _ => .ok "/usr/bin/yt-dlp", fun _ _ => none⟩
    "https://youtu.be/x").2.2.2.1 "/usr/bin/yt-dlp" rfl

end YoutubeManager
